import Mathlib

/-!
# Ghost data validation (`core/server/data/validation/index.js`)

A shallow embedding of the validation module: the generic rule-set validator
`validate`, the schema validator `validateSchema` and the settings validator
`validateSettings`, followed by theorems about them.

Modelling conventions.

* JavaScript values (`Value`) are the primitive values and the members that
  every object inherits from `Object.prototype`; numbers are integers. Strings
  are sequences of characters and their length counts characters.
* A JavaScript object used as a mapping (record, table, schema, rule set,
  settings catalog) is an association list holding its own enumerable
  properties in iteration order.
* A record is a plain object: its own properties hold primitive values
  (`Primitive`) and it inherits the members of `Object.prototype`, so a read
  `model[key]` of a key that is not own gives the inherited member when `key`
  names one, and the call `model.hasOwnProperty(key)` goes to the record's own
  property `hasOwnProperty` when it has one.
* A function returns `Outcome.success` when it returns `undefined`,
  `Outcome.rejected errs` when it returns `when.reject(errs)` and
  `Outcome.fault f` when it throws.
* The `validator` object is a parameter: a mapping from property name to the
  predicate stored under that name.
-/

namespace Validation

/-! ## Values -/

/-- JavaScript values: the primitive values, and `inherited name` for the member
of `Object.prototype` stored under `name` (a function, or the prototype object
itself for `__proto__`). -/
inductive Value where
  | undefined
  | null
  | bool (b : Bool)
  | num (n : Int)
  | str (s : String)
  | inherited (name : String)
deriving DecidableEq, Repr, Inhabited

/-- JavaScript truthiness (`if (x)`, `!x`, `x || y`). -/
def Value.truthy : Value → Bool
  | .undefined => false
  | .null => false
  | .bool b => b
  | .num n => n != 0
  | .str s => s != ""
  | .inherited _ => true

/-- `result !== goodResult` where `goodResult` is a boolean primitive. -/
def strictNe (result : Value) (goodResult : Bool) : Bool :=
  match result with
  | .bool b => b != goodResult
  | _ => true

/-- The raw value of one rule-set entry: an array of options or any other value. -/
inductive RuleOptions where
  | scalar (x : Value)
  | array (xs : List Value)
deriving DecidableEq, Repr

/-- A `validations` object: rule name to raw options, in iteration order. -/
abbrev RuleSet := List (String × RuleOptions)

/-- The `errors.ValidationError(message, attribute)` objects (`attr` is the attribute). -/
structure ValidationError where
  message : String
  attr : String
deriving DecidableEq, Repr

/-- Exceptions thrown while validating. -/
inductive Fault where
  | typeError (property : String)
deriving DecidableEq, Repr

/-- What a call of `validate`, `validateSchema` or `validateSettings` gives back. -/
inductive Outcome where
  | success
  | rejected (errs : List ValidationError)
  | fault (f : Fault)
deriving DecidableEq, Repr

/-- The error list an outcome carries (empty unless it is a rejection). -/
def Outcome.errors : Outcome → List ValidationError
  | .rejected errs => errs
  | _ => []

/-! ## The predicate registry -/

/-- A predicate is called with the value followed by the options. -/
abbrev Predicate := List Value → Value

/-- The `validator` object: `validator[name]`, when it is a function. -/
abbrev Validator := String → Option Predicate

/-- The call `validator[name].apply(validator, args)`: a `TypeError` when
`validator[name]` is not a function. -/
def Validator.call (v : Validator) (name : String) (args : List Value) : Except Fault Value :=
  match v name with
  | some p => .ok (p args)
  | none => .error (.typeError name)

/-! ## `validate` (lines 98-123) -/

/-- Lines 101-108: the expected result and the options array the callback works on. -/
def normalizeOptions : RuleOptions → Bool × List Value
  | .scalar (.bool b) => (b, [])
  | .scalar x => (true, [x])
  | .array xs => (true, xs)

/-- The rule-set entry as seen from outside while the callback's array holds `ys`:
only an entry that is itself an array is the array the callback mutates. -/
def RuleOptions.withArray : RuleOptions → List Value → RuleOptions
  | .array _, ys => .array ys
  | .scalar x, _ => .scalar x

/-- The error pushed at line 114. -/
def ruleError (validationName key : String) : ValidationError :=
  ⟨"Settings validation (" ++ validationName ++ ") failed for " ++ key, key⟩

/-- One run of the `_.each` callback (lines 100-118) for the entry
`validationName: validationOptions`, from the accumulated errors: the new
accumulator (or the exception thrown) and the entry as the callback leaves it. -/
def validateEntry (v : Validator) (value : Value) (key : String)
    (validationErrors : List ValidationError) (validationName : String)
    (validationOptions : RuleOptions) : Except Fault (List ValidationError) × RuleOptions :=
  let goodResult := (normalizeOptions validationOptions).1
  -- validationOptions.unshift(value)
  let unshifted := value :: (normalizeOptions validationOptions).2
  match v.call validationName unshifted with
  | .error f => (.error f, validationOptions.withArray unshifted)
  | .ok result =>
    let validationErrors' :=
      if strictNe result goodResult then validationErrors ++ [ruleError validationName key]
      else validationErrors
    -- validationOptions.shift()
    (.ok validationErrors', validationOptions.withArray unshifted.tail)

/-- The `_.each(validations, ...)` loop of line 100: the final accumulator (or
the exception that ended the loop) and the rule set as the loop leaves it. -/
def validateEach (v : Validator) (value : Value) (key : String) :
    List ValidationError → RuleSet → Except Fault (List ValidationError) × RuleSet
  | validationErrors, [] => (.ok validationErrors, [])
  | validationErrors, (validationName, validationOptions) :: rest =>
    match validateEntry v value key validationErrors validationName validationOptions with
    | (.error f, opts) => (.error f, (validationName, opts) :: rest)
    | (.ok validationErrors', opts) =>
      ((validateEach v value key validationErrors' rest).1,
        (validationName, opts) :: (validateEach v value key validationErrors' rest).2)

/-- The function `validate` with its effect on the rule set made explicit. -/
def validateRun (v : Validator) (value : Value) (key : String) (validations : RuleSet) :
    Outcome × RuleSet :=
  match validateEach v value key [] validations with
  | (.error f, rs) => (.fault f, rs)
  | (.ok validationErrors, rs) =>
    (if validationErrors.length != 0 then .rejected validationErrors else .success, rs)

/-- The function `validate(value, key, validations)`: its outcome. -/
def validate (v : Validator) (value : Value) (key : String) (validations : RuleSet) : Outcome :=
  (validateRun v value key validations).1

/-! ## `validateSchema` (lines 24-67) -/

/-- One column's entry of the schema. -/
structure ColumnSpec where
  nullable : Option Bool := none
  maxlength : Option Int := none
  type : Option String := none
  validations : Option RuleSet := none
deriving Repr

/-- The columns of one table, in declaration order (each column once). -/
abbrev Table := List (String × ColumnSpec)

/-- The object `schema`: table name to table. -/
abbrev Schema := List (String × Table)

/-- The values a record holds as its own properties: primitive values. -/
inductive Primitive where
  | undefined
  | null
  | bool (b : Bool)
  | num (n : Int)
  | str (s : String)
deriving DecidableEq, Repr, Inhabited

/-- A primitive as a value. -/
def Primitive.toValue : Primitive → Value
  | .undefined => .undefined
  | .null => .null
  | .bool b => .bool b
  | .num n => .num n
  | .str s => .str s

/-- The object `model`: its own properties. -/
abbrev Record := List (String × Primitive)

/-- The names of the members a plain object inherits from `Object.prototype`. -/
def objectPrototype : List String :=
  ["constructor", "toString", "toLocaleString", "valueOf", "hasOwnProperty",
    "isPrototypeOf", "propertyIsEnumerable", "__defineGetter__", "__defineSetter__",
    "__lookupGetter__", "__lookupSetter__", "__proto__"]

/-- The call `model.hasOwnProperty(columnKey)`. The member `hasOwnProperty` is
looked up on the record first: when the record has an own property of that
name, its value is a primitive, which is no function, and the call throws a
`TypeError`; otherwise the inherited function answers whether `columnKey` is an
own property. -/
def hasOwnProperty (model : Record) (columnKey : String) : Except Fault Bool :=
  match model.lookup "hasOwnProperty" with
  | some _ => .error (.typeError "hasOwnProperty")
  | none => .ok (model.lookup columnKey).isSome

/-- The read `model[columnKey]`: the own property when there is one, else the
member inherited from `Object.prototype` when `columnKey` names one, else
`undefined`. -/
def getProperty (model : Record) (columnKey : String) : Value :=
  match model.lookup columnKey with
  | some x => x.toValue
  | none => if columnKey ∈ objectPrototype then .inherited columnKey else .undefined

/-- The attribute `tableName + '.' + columnKey`. -/
def attributeOf (tableName columnKey : String) : String :=
  tableName ++ "." ++ columnKey

/-- The error of lines 34-35. -/
def blankError (tableName columnKey : String) : ValidationError :=
  ⟨"Value in [" ++ tableName ++ "." ++ columnKey ++ "] cannot be blank.",
    attributeOf tableName columnKey⟩

/-- The error of lines 43-45. -/
def maxLengthError (tableName columnKey : String) (maxlength : Int) : ValidationError :=
  ⟨"Value in [" ++ tableName ++ "." ++ columnKey ++ "] exceeds maximum length of "
      ++ toString maxlength ++ " characters.",
    attributeOf tableName columnKey⟩

/-- The error of lines 57-58. -/
def integerError (tableName columnKey : String) : ValidationError :=
  ⟨"Value in [" ++ tableName ++ "." ++ columnKey ++ "] is no valid integer.",
    attributeOf tableName columnKey⟩

/-- Lines 31-37: the nullable check. -/
def checkNullable (v : Validator) (tableName : String) (model : Record) (columnKey : String)
    (spec : ColumnSpec) (validationErrors : List ValidationError) :
    Except Fault (List ValidationError) :=
  match hasOwnProperty model columnKey with
  | .error f => .error f
  | .ok own =>
    if own && spec.nullable.isSome && spec.nullable != some true then
      match v.call "isNull" [getProperty model columnKey] with
      | .error f => .error f
      | .ok isNull =>
        if isNull.truthy then .ok (validationErrors ++ [blankError tableName columnKey])
        else
          match v.call "empty" [getProperty model columnKey] with
          | .error f => .error f
          | .ok empty =>
            if empty.truthy then .ok (validationErrors ++ [blankError tableName columnKey])
            else .ok validationErrors
    else .ok validationErrors

/-- Lines 41-47: the length check. -/
def checkLength (v : Validator) (tableName : String) (model : Record) (columnKey : String)
    (spec : ColumnSpec) (validationErrors : List ValidationError) :
    Except Fault (List ValidationError) :=
  match spec.maxlength with
  | none => .ok validationErrors
  | some maxlength =>
    match v.call "isLength" [getProperty model columnKey, .num 0, .num maxlength] with
    | .error f => .error f
    | .ok ok =>
      if !ok.truthy then .ok (validationErrors ++ [maxLengthError tableName columnKey maxlength])
      else .ok validationErrors

/-- Lines 50-52: the validations object is run through `validate` with the key
`columnKey`; line 51 calls `validationErrors.concat(...)`, which builds a new
array and leaves `validationErrors` as it was, and the new array is not kept. -/
def checkValidations (v : Validator) (model : Record) (columnKey : String)
    (spec : ColumnSpec) (validationErrors : List ValidationError) :
    Except Fault (List ValidationError) :=
  match spec.validations with
  | none => .ok validationErrors
  | some validations =>
    match validate v (getProperty model columnKey) columnKey validations with
    | .fault f => .error f
    | _ => .ok validationErrors

/-- Lines 55-60: the type check. -/
def checkType (v : Validator) (tableName : String) (model : Record) (columnKey : String)
    (spec : ColumnSpec) (validationErrors : List ValidationError) :
    Except Fault (List ValidationError) :=
  match spec.type with
  | none => .ok validationErrors
  | some type =>
    if type = "integer" then
      match v.call "isInt" [getProperty model columnKey] with
      | .error f => .error f
      | .ok ok =>
        if !ok.truthy then .ok (validationErrors ++ [integerError tableName columnKey])
        else .ok validationErrors
    else .ok validationErrors

/-- The `_.each` callback of lines 28-62 for one column. -/
def checkColumn (v : Validator) (tableName : String) (model : Record) (columnKey : String)
    (spec : ColumnSpec) (validationErrors : List ValidationError) :
    Except Fault (List ValidationError) :=
  match checkNullable v tableName model columnKey spec validationErrors with
  | .error f => .error f
  | .ok errs1 =>
    if (getProperty model columnKey).truthy then
      match checkLength v tableName model columnKey spec errs1 with
      | .error f => .error f
      | .ok errs2 =>
        match checkValidations v model columnKey spec errs2 with
        | .error f => .error f
        | .ok errs3 => checkType v tableName model columnKey spec errs3
    else .ok errs1

/-- The `_.each(columns, ...)` loop of line 28. -/
def checkColumns (v : Validator) (tableName : String) (model : Record) :
    List ValidationError → Table → Except Fault (List ValidationError)
  | validationErrors, [] => .ok validationErrors
  | validationErrors, (columnKey, spec) :: rest =>
    match checkColumn v tableName model columnKey spec validationErrors with
    | .error f => .error f
    | .ok validationErrors' => checkColumns v tableName model validationErrors' rest

/-- The function `validateSchema(tableName, model)`; `_.keys(schema[tableName])`
is empty when the schema has no such table. -/
def validateSchema (v : Validator) (schema : Schema) (tableName : String) (model : Record) :
    Outcome :=
  match checkColumns v tableName model [] ((schema.lookup tableName).getD []) with
  | .error f => .fault f
  | .ok validationErrors =>
    if validationErrors.length != 0 then .rejected validationErrors else .success

/-! ## `validateSettings` (lines 72-79) -/

/-- One entry of the default settings: `validations` is `none` when the entry
has no (truthy) `validations` property. -/
structure DefaultSetting where
  value : Value := .null
  validations : Option RuleSet := none
deriving Repr

/-- The object `defaultSettings`. -/
abbrev DefaultSettings := List (String × DefaultSetting)

/-- The object `model.toJSON()` of a setting. -/
structure Setting where
  key : String
  value : Value
deriving Repr

/-- The function `validateSettings(defaultSettings, model)`, on `values = model.toJSON()`. -/
def validateSettings (v : Validator) (defaultSettings : DefaultSettings) (values : Setting) :
    Outcome :=
  match defaultSettings.lookup values.key with
  | some matchingDefault =>
    match matchingDefault.validations with
    | some validations => validate v values.value values.key validations
    | none => .success
  | none => .success

/-! ## The builtin predicates -/

/-- Modelled from the spec: the `validator` library is not part of the sources;
its null check holds of `null` and of the string without characters, and of no
other string. -/
def IsNullCheck (p : Predicate) : Prop :=
  p [.null] = .bool true ∧ ∀ s : String, p [.str s] = .bool (s.length == 0)

/-- Modelled from the spec: the `validator` library is not part of the sources;
its length-bound check, called with a string and explicit integer bounds, holds
when the length of the string lies between the bounds. -/
def IsLengthCheck (p : Predicate) : Prop :=
  ∀ (s : String) (min max : Int),
    p [.str s, .num min, .num max] = .bool (decide (min ≤ s.length ∧ (s.length : Int) ≤ max))

/-- Decimal integer literals: an optional minus sign, then `0` or digits not
starting with `0`. -/
def isIntegerString (s : String) : Bool :=
  let digits := match s.toList with
    | '-' :: rest => rest
    | cs => cs
  match digits with
  | [] => false
  | ['0'] => true
  | d :: rest => d != '0' && d.isDigit && rest.all Char.isDigit

/-- Modelled from the spec: the `validator` library is not part of the sources;
its integer check holds of a string when the string is a decimal integer literal. -/
def IsIntCheck (p : Predicate) : Prop :=
  ∀ s : String, p [.str s] = .bool (isIntegerString s)

/-- Modelled from the spec: the `validator` library is not part of the sources;
it turns the value into a string before a predicate looks at it (for an
inherited member, a text that stands for the source text of the function). -/
def toStr : Value → String
  | .undefined => ""
  | .null => ""
  | .bool b => if b then "true" else "false"
  | .num n => toString n
  | .str s => s
  | .inherited name => "function " ++ name ++ "() \x7b [native code] \x7d"

/-- Modelled from the spec: the null check of the `validator` library. -/
def libIsNull : Predicate :=
  fun args => .bool ((toStr (args.headD .undefined)).length == 0)

/-- Lines 13-15: the predicate registered as `empty`, `_.isEmpty` of the value
as a string. -/
def empty : Predicate :=
  fun args => .bool ((toStr (args.headD .undefined)).length == 0)

/-- Modelled from the spec: the length-bound check of the `validator` library,
for integer bounds (with other bounds it is given no meaning here and answers
`false`). -/
def libIsLength : Predicate :=
  fun args =>
    match args with
    | [x, .num min, .num max] =>
      .bool (decide (min ≤ (toStr x).length ∧ ((toStr x).length : Int) ≤ max))
    | _ => .bool false

/-- Modelled from the spec: the integer check of the `validator` library. -/
def libIsInt : Predicate :=
  fun args => .bool (isIntegerString (toStr (args.headD .undefined)))

/-- A registry holding `isNull`, `empty`, `isLength` and `isInt`, at which the
theorems below are instantiated. -/
def libValidator : Validator := fun name =>
  if name = "isNull" then some libIsNull
  else if name = "empty" then some empty
  else if name = "isLength" then some libIsLength
  else if name = "isInt" then some libIsInt
  else none

/-- A rule set with one failing and one passing rule for the value `"abc"`. -/
def sampleRules : RuleSet :=
  [("isLength", .array [.num 0, .num 2]), ("isNull", .scalar (.bool false))]

/-! ## Specification-side definitions for `validate` -/

/-- Spec 4.2: a rule passes when `predicate(value, ...options) === expectedOutcome`;
a boolean option is the expected outcome with no further argument, any other
scalar is one argument, an array holds the arguments. -/
def rulePasses (p : Predicate) (value : Value) : RuleOptions → Bool
  | .scalar (.bool expected) => p [value] == .bool expected
  | .scalar x => p [value, x] == .bool true
  | .array xs => p (value :: xs) == .bool true

/-- A rule of a rule set fails when its predicate is registered and does not pass. -/
def ruleFails (v : Validator) (value : Value) (rule : String × RuleOptions) : Bool :=
  match v rule.1 with
  | some p => !rulePasses p value rule.2
  | none => false

/-- The rules of a rule set that fail, in iteration order. -/
def failingRules (v : Validator) (value : Value) (validations : RuleSet) : RuleSet :=
  validations.filter (ruleFails v value)

/-- Every rule name of the rule set is a registered predicate. -/
def RulesRegistered (v : Validator) (validations : RuleSet) : Prop :=
  ∀ rule ∈ validations, (v rule.1).isSome = true

/-! ## Specification-side definitions for `validateSchema` -/

/-- The value `validator[name](...args)` of a registered predicate. -/
def Validator.result (v : Validator) (name : String) (args : List Value) : Value :=
  match v name with
  | some p => p args
  | none => .undefined

/-- The record has the key present (as an own property). -/
def isPresent (model : Record) (columnKey : String) : Bool :=
  (model.lookup columnKey).isSome

/-- Spec 4.4 step 1: the key is present, `nullable` is declared and is not
`true`, and the value is null or empty. -/
def blankViolated (v : Validator) (model : Record) (columnKey : String) (spec : ColumnSpec) :
    Bool :=
  isPresent model columnKey && (spec.nullable == some false) &&
    ((v.result "isNull" [getProperty model columnKey]).truthy ||
      (v.result "empty" [getProperty model columnKey]).truthy)

/-- Spec 4.4 step 2a: the value is truthy, `maxlength` is declared and the
length check with bounds `0` and `maxlength` does not hold. -/
def lengthViolated (v : Validator) (model : Record) (columnKey : String) (maxlength : Int) :
    Bool :=
  (getProperty model columnKey).truthy &&
    !(v.result "isLength" [getProperty model columnKey, .num 0, .num maxlength]).truthy

/-- Spec 4.4 step 2c: the value is truthy, the type is `integer` and the
integer check does not hold. -/
def integerViolated (v : Validator) (model : Record) (columnKey : String) (spec : ColumnSpec) :
    Bool :=
  (getProperty model columnKey).truthy && (spec.type == some "integer") &&
    !(v.result "isInt" [getProperty model columnKey]).truthy

/-- Spec 4.4 step 2b: when the value is truthy and `validations` is declared,
the errors of the rule-set validator for the value under the compound key
`<entityType>.<column>`: one for every failing rule. -/
def ruleViolations (v : Validator) (tableName : String) (model : Record) (columnKey : String)
    (spec : ColumnSpec) : List ValidationError :=
  if (getProperty model columnKey).truthy then
    match spec.validations with
    | some validations =>
      (failingRules v (getProperty model columnKey) validations).map
        (fun rule => ruleError rule.1 (attributeOf tableName columnKey))
    | none => []
  else []

/-- Spec 4.4: the violations of one column: blank, then maximum length, then
the failed custom rules, then integer type. -/
def columnViolations (v : Validator) (tableName : String) (model : Record) (columnKey : String)
    (spec : ColumnSpec) : List ValidationError :=
  (if blankViolated v model columnKey spec then [blankError tableName columnKey] else []) ++
    (match spec.maxlength with
      | some maxlength =>
        if lengthViolated v model columnKey maxlength then
          [maxLengthError tableName columnKey maxlength]
        else []
      | none => []) ++
    ruleViolations v tableName model columnKey spec ++
    (if integerViolated v model columnKey spec then [integerError tableName columnKey] else [])

/-- Closed form of what the pass of lines 28-62 pushes for one column when
nothing throws: the blank error (line 35), the maximum-length error (line 45)
and the integer error (line 58). The errors of `validate` at line 51 are not
among them: the array that `concat` builds is not kept. -/
def columnErrors (v : Validator) (tableName : String) (model : Record) (columnKey : String)
    (spec : ColumnSpec) : List ValidationError :=
  (if blankViolated v model columnKey spec then [blankError tableName columnKey] else []) ++
    (match spec.maxlength with
      | some maxlength =>
        if lengthViolated v model columnKey maxlength then
          [maxLengthError tableName columnKey maxlength]
        else []
      | none => []) ++
    (if integerViolated v model columnKey spec then [integerError tableName columnKey] else [])

/-- The columns declared for an entity type (none when the schema has no entry). -/
def columnsOf (schema : Schema) (tableName : String) : Table :=
  (schema.lookup tableName).getD []

/-- Closed form of what `validateSchema` accumulates when nothing throws. -/
def schemaErrors (v : Validator) (schema : Schema) (tableName : String) (model : Record) :
    List ValidationError :=
  (columnsOf schema tableName).flatMap
    (fun column => columnErrors v tableName model column.1 column.2)

/-- The predicates that `validateSchema` calls by name are registered. -/
def BuiltinsRegistered (v : Validator) : Prop :=
  (v "isNull").isSome = true ∧ (v "empty").isSome = true ∧
    (v "isLength").isSome = true ∧ (v "isInt").isSome = true

/-- Data-model invariant: every rule name in the `validations` of a table's
columns is a registered predicate. -/
def TableRegistered (v : Validator) (table : Table) : Prop :=
  ∀ column ∈ table, ∀ rs, column.2.validations = some rs → RulesRegistered v rs

/-- Each column is declared once (the table is an object: its keys are distinct). -/
def DistinctColumns (table : Table) : Prop :=
  (table.map Prod.fst).Nodup

/-- The errors of a list that carry the attribute of one column. -/
def errorsFor (errs : List ValidationError) (tableName columnKey : String) :
    List ValidationError :=
  errs.filter (fun e => e.attr = attributeOf tableName columnKey)

/-- The number of failed custom rules of one column (spec 4.4 step 2b). -/
def failedRules (v : Validator) (model : Record) (columnKey : String) (spec : ColumnSpec) :
    Nat :=
  if (getProperty model columnKey).truthy then
    match spec.validations with
    | some validations => (failingRules v (getProperty model columnKey) validations).length
    | none => 0
  else 0

/-- The number of violated checks of one column: blank, maximum length, each
failed custom rule, integer type. -/
def columnViolatedChecks (v : Validator) (model : Record) (columnKey : String)
    (spec : ColumnSpec) : Nat :=
  (if blankViolated v model columnKey spec then 1 else 0) +
    (match spec.maxlength with
      | some maxlength => if lengthViolated v model columnKey maxlength then 1 else 0
      | none => 0) +
    failedRules v model columnKey spec +
    (if integerViolated v model columnKey spec then 1 else 0)

/-- The number of violated checks of a record, over all declared columns. -/
def violatedChecks (v : Validator) (schema : Schema) (tableName : String) (model : Record) :
    Nat :=
  ((columnsOf schema tableName).map
    (fun column => columnViolatedChecks v model column.1 column.2)).sum

/-- The record has no own property named `hasOwnProperty`, so the call
`model.hasOwnProperty(...)` reaches the inherited function. -/
def Unshadowed (model : Record) : Prop :=
  model.lookup "hasOwnProperty" = none

/-- No custom rule of a declared column fails for the record. -/
def NoRuleFails (v : Validator) (schema : Schema) (tableName : String) (model : Record) :
    Prop :=
  ∀ column ∈ columnsOf schema tableName, failedRules v model column.1 column.2 = 0

/-- An integer column. -/
def constructorSpec : ColumnSpec :=
  { type := some "integer" }

/-- A table with an integer column named like a member of `Object.prototype`. -/
def prototypePosts : Table :=
  [("constructor", constructorSpec)]

/-- A schema with the one table `posts` holding that column. -/
def prototypeSchema : Schema :=
  [("posts", prototypePosts)]

/-- A required title of at most 5 characters that carries a custom rule. -/
def titleSpec : ColumnSpec :=
  { nullable := some false, maxlength := some 5,
    validations := some [("isLength", .array [.num 0, .num 3])] }

/-- An integer column. -/
def viewsSpec : ColumnSpec :=
  { type := some "integer" }

/-- A required slug. -/
def slugSpec : ColumnSpec :=
  { nullable := some false }

/-- A table with the three columns above. -/
def samplePosts : Table :=
  [("title", titleSpec), ("views", viewsSpec), ("slug", slugSpec)]

/-- A schema with the one table `posts`. -/
def sampleSchema : Schema :=
  [("posts", samplePosts)]

/-- Spec 4.5: the rule set to apply to a setting: the `validations` of the
catalog entry for the key, and no rule when the catalog has no entry for the
key or the entry has no `validations`. -/
def settingRules (defaultSettings : DefaultSettings) (key : String) : RuleSet :=
  match defaultSettings.lookup key with
  | some matchingDefault => matchingDefault.validations.getD []
  | none => []

/-- A settings catalog: a title of 2 to 5 characters and a description without rules. -/
def sampleSettings : DefaultSettings :=
  [("title", { value := .str "Ghost", validations := some [("isLength", .array [.num 2, .num 5])] }),
   ("description", { value := .str "" })]

/-- The first rule name of a rule set, in iteration order, that is not a
registered predicate. -/
def firstUnregistered (v : Validator) (validations : RuleSet) : Option String :=
  (validations.find? (fun rule => (v rule.1).isNone)).map Prod.fst

/-- A rule set whose only rule names no predicate of `libValidator`. -/
def unknownRules : RuleSet :=
  [("nope", .array [.num 2, .num 3])]

/-- A table whose column `nickname` declares no `nullable` and whose column
`bio` declares `nullable` true. -/
def sampleUsers : Table :=
  [("nickname", { maxlength := some 3 }), ("bio", { nullable := some true })]

/-- A schema with the one table `users`. -/
def usersSchema : Schema :=
  [("users", sampleUsers)]

/-! ## Lemmas about `validate` -/

theorem strictNe_eq (result : Value) (goodResult : Bool) :
    strictNe result goodResult = !(result == Value.bool goodResult) := by
  cases result <;> simp [strictNe]
  rename_i b
  cases b <;> cases goodResult <;> decide

theorem validateEntry_registered (v : Validator) (value : Value) (key : String)
    (errs : List ValidationError) (name : String) (opts : RuleOptions) (p : Predicate)
    (hp : v name = some p) :
    validateEntry v value key errs name opts =
      (.ok (if rulePasses p value opts then errs else errs ++ [ruleError name key]), opts) := by
  cases opts with
  | scalar x =>
    cases x <;>
      simp [validateEntry, Validator.call, hp, normalizeOptions, rulePasses, strictNe_eq,
        RuleOptions.withArray]
  | array xs =>
    simp [validateEntry, Validator.call, hp, normalizeOptions, rulePasses, strictNe_eq,
      RuleOptions.withArray]

theorem validateEach_registered (v : Validator) (value : Value) (key : String)
    (rs : RuleSet) (hreg : RulesRegistered v rs) (errs : List ValidationError) :
    validateEach v value key errs rs =
      (.ok (errs ++ (failingRules v value rs).map (fun rule => ruleError rule.1 key)), rs) := by
  induction rs generalizing errs with
  | nil => simp [validateEach, failingRules]
  | cons rule rest ih =>
    obtain ⟨name, opts⟩ := rule
    have hname : (v name).isSome = true := hreg (name, opts) (by simp)
    obtain ⟨p, hp⟩ := Option.isSome_iff_exists.mp hname
    have hrest : RulesRegistered v rest := fun r hr => hreg r (List.mem_cons_of_mem _ hr)
    simp only [validateEach, validateEntry_registered v value key errs name opts p hp, ih hrest]
    by_cases hpass : rulePasses p value opts = true
    · simp [failingRules, List.filter_cons, ruleFails, hp, hpass]
    · simp [failingRules, List.filter_cons, ruleFails, hp, hpass]

theorem validate_registered (v : Validator) (value : Value) (key : String)
    (rs : RuleSet) (hreg : RulesRegistered v rs) :
    validate v value key rs =
      if (failingRules v value rs).length != 0 then
        .rejected ((failingRules v value rs).map (fun rule => ruleError rule.1 key))
      else .success := by
  simp [validate, validateRun, validateEach_registered v value key rs hreg]

theorem failingRules_eq_nil_iff (v : Validator) (value : Value) (rs : RuleSet) :
    failingRules v value rs = [] ↔ ∀ rule ∈ rs, ruleFails v value rule = false := by
  simp [failingRules, List.filter_eq_nil_iff]

/-- C1: for a rule set whose rule names are all registered predicates, `validate`
rejects exactly when some rule fails (its predicate result differs from the
expected outcome), the rejection carries one error for every failing rule, in
order, and `validate` succeeds with no value exactly when no rule fails. -/
theorem validate_rejects_with_every_failing_rule (v : Validator) (value : Value) (key : String)
    (rs : RuleSet) (hreg : RulesRegistered v rs) :
    ((∃ errs, validate v value key rs = .rejected errs) ↔
        ∃ rule ∈ rs, ruleFails v value rule = true) ∧
      (validate v value key rs).errors =
        (failingRules v value rs).map (fun rule => ruleError rule.1 key) ∧
      (validate v value key rs = .success ↔ ∀ rule ∈ rs, ruleFails v value rule = false) := by
  rw [validate_registered v value key rs hreg]
  by_cases hnil : failingRules v value rs = []
  · have hall := (failingRules_eq_nil_iff v value rs).mp hnil
    refine ⟨?_, ?_, ?_⟩
    · simp only [hnil, List.length_nil, bne_self_eq_false, Bool.false_eq_true, if_false]
      constructor
      · rintro ⟨errs, h⟩
        cases h
      · rintro ⟨rule, hmem, hfail⟩
        rw [hall rule hmem] at hfail
        cases hfail
    · simp [hnil, Outcome.errors]
    · simp only [hnil, List.length_nil, bne_self_eq_false, Bool.false_eq_true, if_false, true_iff]
      exact hall
  · have hlen : ((failingRules v value rs).length != 0) = true := by
      simpa using hnil
    have hex : ∃ rule ∈ rs, ruleFails v value rule = true := by
      by_contra hno
      apply hnil
      rw [failingRules_eq_nil_iff]
      intro rule hmem
      cases hf : ruleFails v value rule
      · rfl
      · exact absurd ⟨rule, hmem, hf⟩ hno
    refine ⟨?_, ?_, ?_⟩
    · simp only [hlen, if_true]
      exact ⟨fun _ => hex, fun _ => ⟨_, rfl⟩⟩
    · simp [hlen, Outcome.errors]
    · simp only [hlen, if_true]
      constructor
      · intro h
        cases h
      · intro hall
        exact absurd ((failingRules_eq_nil_iff v value rs).mpr hall) hnil

theorem libIsNull_check : IsNullCheck libIsNull :=
  ⟨rfl, fun _ => rfl⟩

theorem libIsLength_check : IsLengthCheck libIsLength :=
  fun _ _ _ => rfl

theorem libIsInt_check : IsIntCheck libIsInt :=
  fun _ => rfl

theorem sampleRules_registered : RulesRegistered libValidator sampleRules := by
  intro rule hmem
  simp only [sampleRules, List.mem_cons, List.mem_singleton, List.not_mem_nil, or_false] at hmem
  rcases hmem with h | h <;> subst h <;> rfl

theorem validate_rejects_with_every_failing_rule_witness :
    RulesRegistered libValidator sampleRules ∧
      (validate libValidator (.str "abc") "title" sampleRules).errors =
        (failingRules libValidator (.str "abc") sampleRules).map
          (fun rule => ruleError rule.1 "title") :=
  ⟨sampleRules_registered,
    (validate_rejects_with_every_failing_rule libValidator (.str "abc") "title" sampleRules
      sampleRules_registered).2.1⟩

/-- C9: a rule with a boolean option passes exactly when the predicate, called
with the value alone, returns that boolean, and otherwise leaves one error; so
`isNull: false` against `null` is rejected with one error whose attribute is
the key. -/
theorem boolean_option_is_expected_outcome (v : Validator) (value : Value) (key r : String)
    (b : Bool) (p q : Predicate) (hr : v r = some p) (hnull : v "isNull" = some q)
    (hq : IsNullCheck q) :
    (validate v value key [(r, .scalar (.bool b))] =
        if p [value] = .bool b then .success else .rejected [ruleError r key]) ∧
      validate v .null key [("isNull", .scalar (.bool false))] =
        .rejected [ruleError "isNull" key] ∧
      (ruleError "isNull" key).attr = key := by
  refine ⟨?_, ?_, rfl⟩
  · have hreg : RulesRegistered v [(r, .scalar (.bool b))] := by
      intro rule hmem
      simp only [List.mem_singleton] at hmem
      subst hmem
      simp [hr]
    rw [validate_registered v value key _ hreg]
    by_cases h : p [value] = .bool b
    · simp [failingRules, ruleFails, hr, rulePasses, h]
    · simp [failingRules, ruleFails, hr, rulePasses, h]
  · have hreg : RulesRegistered v [("isNull", .scalar (.bool false))] := by
      intro rule hmem
      simp only [List.mem_singleton] at hmem
      subst hmem
      simp [hnull]
    rw [validate_registered v .null key _ hreg]
    simp [failingRules, ruleFails, hnull, rulePasses, hq.1]

theorem boolean_option_is_expected_outcome_witness :
    validate libValidator .null "title" [("isNull", .scalar (.bool false))] =
      .rejected [ruleError "isNull" "title"] :=
  (boolean_option_is_expected_outcome libValidator (.str "abc") "title" "isInt" true
    libIsInt libIsNull rfl rfl libIsNull_check).2.1

/-- C10: with the library's length check registered as `isLength`, the rule
`isLength: [min, max]` against a string succeeds when the length of the string
lies in `[min, max]` and is otherwise rejected with exactly one error; with
`[20, 40]` a string of 10 characters is rejected with one error and a string of
30 characters passes. -/
theorem isLength_rule_checks_bounds (v : Validator) (key : String) (p : Predicate)
    (hp : v "isLength" = some p) (hlen : IsLengthCheck p) :
    (∀ (s : String) (min max : Int),
        validate v (.str s) key [("isLength", .array [.num min, .num max])] =
          if min ≤ s.length ∧ (s.length : Int) ≤ max then .success
          else .rejected [ruleError "isLength" key]) ∧
      (∀ s : String, s.length = 10 →
        validate v (.str s) key [("isLength", .array [.num 20, .num 40])] =
          .rejected [ruleError "isLength" key]) ∧
      (∀ s : String, s.length = 30 →
        validate v (.str s) key [("isLength", .array [.num 20, .num 40])] = .success) := by
  have main : ∀ (s : String) (min max : Int),
      validate v (.str s) key [("isLength", .array [.num min, .num max])] =
        if min ≤ s.length ∧ (s.length : Int) ≤ max then .success
        else .rejected [ruleError "isLength" key] := by
    intro s min max
    have hreg : RulesRegistered v [("isLength", .array [.num min, .num max])] := by
      intro rule hmem
      simp only [List.mem_singleton] at hmem
      subst hmem
      simp [hp]
    rw [validate_registered v (.str s) key _ hreg]
    by_cases h : min ≤ s.length ∧ (s.length : Int) ≤ max
    · simp [failingRules, ruleFails, hp, rulePasses, hlen s min max, h]
    · simp [failingRules, ruleFails, hp, rulePasses, hlen s min max, h]
  refine ⟨main, ?_, ?_⟩
  · intro s hs
    rw [main, hs]
    simp
  · intro s hs
    rw [main, hs]
    simp

theorem isLength_rule_checks_bounds_witness :
    validate libValidator (.str "abcdefghij") "title"
        [("isLength", .array [.num 20, .num 40])] =
      .rejected [ruleError "isLength" "title"] :=
  (isLength_rule_checks_bounds libValidator "title" libIsLength rfl libIsLength_check).2.1
    "abcdefghij" (by decide)

/-! ## Lemmas about `validateSchema` -/

theorem call_of_registered (v : Validator) (name : String) (args : List Value)
    (h : (v name).isSome = true) : v.call name args = .ok (v.result name args) := by
  obtain ⟨p, hp⟩ := Option.isSome_iff_exists.mp h
  simp [Validator.call, Validator.result, hp]

theorem checkNullable_ok (v : Validator) (tableName : String) (model : Record)
    (columnKey : String) (spec : ColumnSpec) (errs : List ValidationError)
    (hb : BuiltinsRegistered v) (hplain : Unshadowed model) :
    checkNullable v tableName model columnKey spec errs =
      .ok (errs ++
        if blankViolated v model columnKey spec then [blankError tableName columnKey] else []) := by
  unfold Unshadowed at hplain
  unfold checkNullable blankViolated hasOwnProperty isPresent
  simp only [hplain]
  rw [call_of_registered v "isNull" _ hb.1, call_of_registered v "empty" _ hb.2.1]
  cases hown : (model.lookup columnKey).isSome <;> rcases hn : spec.nullable with _ | _ | _ <;>
    cases h1 : (v.result "isNull" [getProperty model columnKey]).truthy <;>
    cases h2 : (v.result "empty" [getProperty model columnKey]).truthy <;> simp [h1, h2]

theorem checkLength_ok (v : Validator) (tableName : String) (model : Record)
    (columnKey : String) (spec : ColumnSpec) (errs : List ValidationError)
    (hb : BuiltinsRegistered v) (ht : (getProperty model columnKey).truthy = true) :
    checkLength v tableName model columnKey spec errs =
      .ok (errs ++
        match spec.maxlength with
        | some maxlength =>
          if lengthViolated v model columnKey maxlength then
            [maxLengthError tableName columnKey maxlength]
          else []
        | none => []) := by
  unfold checkLength lengthViolated
  cases hm : spec.maxlength with
  | none => simp
  | some n =>
    simp only [call_of_registered v "isLength" _ hb.2.2.1, ht, Bool.true_and]
    cases (v.result "isLength" [getProperty model columnKey, .num 0, .num n]).truthy <;> simp

theorem checkValidations_ok (v : Validator) (model : Record) (columnKey : String)
    (spec : ColumnSpec) (errs : List ValidationError)
    (hreg : ∀ rs, spec.validations = some rs → RulesRegistered v rs) :
    checkValidations v model columnKey spec errs = .ok errs := by
  unfold checkValidations
  cases hv : spec.validations with
  | none => rfl
  | some rs =>
    simp only [validate_registered v _ columnKey rs (hreg rs hv)]
    by_cases hlen : ((failingRules v (getProperty model columnKey) rs).length != 0) = true
    · simp only [hlen, if_true]
    · simp [hlen]

theorem checkType_ok (v : Validator) (tableName : String) (model : Record)
    (columnKey : String) (spec : ColumnSpec) (errs : List ValidationError)
    (hb : BuiltinsRegistered v) (ht : (getProperty model columnKey).truthy = true) :
    checkType v tableName model columnKey spec errs =
      .ok (errs ++
        if integerViolated v model columnKey spec then [integerError tableName columnKey]
        else []) := by
  unfold checkType integerViolated
  cases hty : spec.type with
  | none => simp
  | some ty =>
    by_cases hint : ty = "integer"
    · subst hint
      simp only [call_of_registered v "isInt" _ hb.2.2.2, ht, Bool.true_and, if_true]
      cases (v.result "isInt" [getProperty model columnKey]).truthy <;> simp
    · simp [hint]

theorem checkColumn_ok (v : Validator) (tableName : String) (model : Record)
    (columnKey : String) (spec : ColumnSpec) (errs : List ValidationError)
    (hb : BuiltinsRegistered v) (hplain : Unshadowed model)
    (hreg : ∀ rs, spec.validations = some rs → RulesRegistered v rs) :
    checkColumn v tableName model columnKey spec errs =
      .ok (errs ++ columnErrors v tableName model columnKey spec) := by
  unfold checkColumn columnErrors
  rw [checkNullable_ok v tableName model columnKey spec errs hb hplain]
  cases ht : (getProperty model columnKey).truthy with
  | false =>
    simp only [Bool.false_eq_true, if_false]
    have h1 : ∀ n, lengthViolated v model columnKey n = false := by
      intro n
      simp [lengthViolated, ht]
    have h2 : integerViolated v model columnKey spec = false := by
      simp [integerViolated, ht]
    cases hm : spec.maxlength <;> simp [h1, h2]
  | true =>
    simp only [if_true]
    rw [checkLength_ok v tableName model columnKey spec _ hb ht]
    simp only [checkValidations_ok v model columnKey spec _ hreg]
    rw [checkType_ok v tableName model columnKey spec _ hb ht]
    simp [List.append_assoc]

theorem checkColumns_ok (v : Validator) (tableName : String) (model : Record)
    (table : Table) (hb : BuiltinsRegistered v) (hplain : Unshadowed model)
    (hreg : TableRegistered v table) (errs : List ValidationError) :
    checkColumns v tableName model errs table =
      .ok (errs ++
        table.flatMap (fun column => columnErrors v tableName model column.1 column.2)) := by
  induction table generalizing errs with
  | nil => simp [checkColumns]
  | cons column rest ih =>
    obtain ⟨columnKey, spec⟩ := column
    have hcol : ∀ rs, spec.validations = some rs → RulesRegistered v rs :=
      hreg (columnKey, spec) (by simp)
    have hrest : TableRegistered v rest := fun c hc => hreg c (List.mem_cons_of_mem _ hc)
    simp only [checkColumns, checkColumn_ok v tableName model columnKey spec errs hb hplain hcol,
      ih hrest, List.flatMap_cons, List.append_assoc]

theorem validateSchema_ok (v : Validator) (schema : Schema) (tableName : String)
    (model : Record) (hb : BuiltinsRegistered v) (hplain : Unshadowed model)
    (hreg : TableRegistered v (columnsOf schema tableName)) :
    validateSchema v schema tableName model =
      if (schemaErrors v schema tableName model).length != 0 then
        .rejected (schemaErrors v schema tableName model)
      else .success := by
  have h := checkColumns_ok v tableName model (columnsOf schema tableName) hb hplain hreg []
  simp only [columnsOf] at h
  simp only [validateSchema, h, schemaErrors, columnsOf, List.nil_append]

theorem attributeOf_injective (tableName c c' : String)
    (h : attributeOf tableName c = attributeOf tableName c') : c = c' := by
  have h2 := congrArg String.data h
  simp only [attributeOf, String.data_append, List.append_assoc] at h2
  exact String.ext (List.append_cancel_left (List.append_cancel_left h2))

theorem columnErrors_attr (v : Validator) (tableName : String) (model : Record)
    (columnKey : String) (spec : ColumnSpec) :
    ∀ e ∈ columnErrors v tableName model columnKey spec,
      e.attr = attributeOf tableName columnKey := by
  intro e he
  simp only [columnErrors, List.mem_append] at he
  rcases he with (he | he) | he
  · split at he
    · simp only [List.mem_singleton] at he
      subst he
      rfl
    · cases he
  · split at he
    · split at he
      · simp only [List.mem_singleton] at he
        subst he
        rfl
      · cases he
    · cases he
  · split at he
    · simp only [List.mem_singleton] at he
      subst he
      rfl
    · cases he

theorem ruleViolations_length (v : Validator) (tableName : String) (model : Record)
    (columnKey : String) (spec : ColumnSpec) :
    (ruleViolations v tableName model columnKey spec).length =
      failedRules v model columnKey spec := by
  unfold ruleViolations failedRules
  split
  · split <;> simp
  · rfl

theorem columnViolations_length (v : Validator) (tableName : String) (model : Record)
    (columnKey : String) (spec : ColumnSpec) :
    (columnViolations v tableName model columnKey spec).length =
      columnViolatedChecks v model columnKey spec := by
  unfold columnViolations columnViolatedChecks
  simp only [List.length_append, ruleViolations_length]
  cases blankViolated v model columnKey spec <;> cases integerViolated v model columnKey spec <;>
    cases spec.maxlength <;> simp <;> split <;> simp

theorem columnViolations_eq_columnErrors (v : Validator) (tableName : String) (model : Record)
    (columnKey : String) (spec : ColumnSpec) (h : failedRules v model columnKey spec = 0) :
    columnViolations v tableName model columnKey spec =
      columnErrors v tableName model columnKey spec := by
  have hnil : ruleViolations v tableName model columnKey spec = [] := by
    apply List.length_eq_zero.mp
    rw [ruleViolations_length, h]
  simp [columnViolations, columnErrors, hnil]

theorem errorsFor_other_columns (v : Validator) (tableName : String) (model : Record)
    (columnKey : String) (table : Table) (hnot : columnKey ∉ table.map Prod.fst) :
    errorsFor (table.flatMap (fun column => columnErrors v tableName model column.1 column.2))
      tableName columnKey = [] := by
  simp only [errorsFor, List.filter_eq_nil_iff, List.mem_flatMap, decide_eq_true_eq]
  rintro e ⟨column, hmem, he⟩ hattr
  rw [columnErrors_attr v tableName model column.1 column.2 e he] at hattr
  apply hnot
  rw [← attributeOf_injective tableName _ _ hattr]
  exact List.mem_map_of_mem Prod.fst hmem

theorem errorsFor_own_column (v : Validator) (tableName : String) (model : Record)
    (columnKey : String) (spec : ColumnSpec) :
    errorsFor (columnErrors v tableName model columnKey spec) tableName columnKey =
      columnErrors v tableName model columnKey spec := by
  simp only [errorsFor, List.filter_eq_self, decide_eq_true_eq]
  exact columnErrors_attr v tableName model columnKey spec

theorem errorsFor_flatMap (v : Validator) (tableName : String) (model : Record)
    (columnKey : String) (spec : ColumnSpec) (table : Table) (hd : DistinctColumns table)
    (hcol : (columnKey, spec) ∈ table) :
    errorsFor (table.flatMap (fun column => columnErrors v tableName model column.1 column.2))
      tableName columnKey = columnErrors v tableName model columnKey spec := by
  induction table with
  | nil => cases hcol
  | cons column rest ih =>
    have hnd : column.1 ∉ rest.map Prod.fst ∧ (rest.map Prod.fst).Nodup := by
      simpa [DistinctColumns] using hd
    have happ : ∀ l₁ l₂ : List ValidationError,
        errorsFor (l₁ ++ l₂) tableName columnKey =
          errorsFor l₁ tableName columnKey ++ errorsFor l₂ tableName columnKey := by
      intro l₁ l₂
      simp [errorsFor]
    rw [List.flatMap_cons, happ]
    rcases List.mem_cons.mp hcol with heq | hmem
    · subst heq
      rw [errorsFor_other_columns v tableName model columnKey rest hnd.1]
      simp [errorsFor_own_column]
    · have hne : column.1 ≠ columnKey := by
        intro h
        apply hnd.1
        rw [h]
        exact List.mem_map_of_mem Prod.fst hmem
      have hnone : errorsFor (columnErrors v tableName model column.1 column.2)
          tableName columnKey = [] := by
        simp only [errorsFor, List.filter_eq_nil_iff, decide_eq_true_eq]
        intro e he hattr
        rw [columnErrors_attr v tableName model column.1 column.2 e he] at hattr
        exact hne (attributeOf_injective tableName _ _ hattr)
      rw [hnone, ih hnd.2 hmem]
      rfl

theorem errorsFor_validateSchema (v : Validator) (schema : Schema) (tableName : String)
    (model : Record) (columnKey : String) (spec : ColumnSpec) (hb : BuiltinsRegistered v)
    (hplain : Unshadowed model)
    (hreg : TableRegistered v (columnsOf schema tableName))
    (hd : DistinctColumns (columnsOf schema tableName))
    (hcol : (columnKey, spec) ∈ columnsOf schema tableName) :
    errorsFor (validateSchema v schema tableName model).errors tableName columnKey =
      columnErrors v tableName model columnKey spec := by
  rw [validateSchema_ok v schema tableName model hb hplain hreg]
  have h := errorsFor_flatMap v tableName model columnKey spec _ hd hcol
  by_cases hlen : ((schemaErrors v schema tableName model).length != 0) = true
  · simp only [hlen, if_true, Outcome.errors]
    exact h
  · have hnil : schemaErrors v schema tableName model = [] := by
      simpa using hlen
    have h2 : errorsFor (schemaErrors v schema tableName model) tableName columnKey =
        columnErrors v tableName model columnKey spec := h
    simp only [hlen, if_false, Outcome.errors]
    rw [hnil] at h2
    rw [← h2]
    rfl

theorem violations_length (v : Validator) (schema : Schema) (tableName : String)
    (model : Record) :
    ((columnsOf schema tableName).flatMap
        (fun column => columnViolations v tableName model column.1 column.2)).length =
      violatedChecks v schema tableName model := by
  unfold violatedChecks
  induction columnsOf schema tableName with
  | nil => rfl
  | cons column rest ih =>
    simp only [List.flatMap_cons, List.length_append, List.map_cons, List.sum_cons, ih,
      columnViolations_length]

theorem flatMap_violations_eq (v : Validator) (tableName : String) (model : Record)
    (table : Table) (hrules : ∀ column ∈ table, failedRules v model column.1 column.2 = 0) :
    table.flatMap (fun column => columnViolations v tableName model column.1 column.2) =
      table.flatMap (fun column => columnErrors v tableName model column.1 column.2) := by
  induction table with
  | nil => rfl
  | cons column rest ih =>
    simp only [List.flatMap_cons]
    rw [columnViolations_eq_columnErrors v tableName model column.1 column.2
      (hrules column (by simp)), ih (fun c hc => hrules c (List.mem_cons_of_mem _ hc))]

theorem violations_eq_schemaErrors (v : Validator) (schema : Schema) (tableName : String)
    (model : Record) (hrules : NoRuleFails v schema tableName model) :
    (columnsOf schema tableName).flatMap
        (fun column => columnViolations v tableName model column.1 column.2) =
      schemaErrors v schema tableName model :=
  flatMap_violations_eq v tableName model _ hrules

theorem libValidator_builtins : BuiltinsRegistered libValidator :=
  ⟨rfl, rfl, rfl, rfl⟩

theorem columnsOf_sampleSchema : columnsOf sampleSchema "posts" = samplePosts := by
  rfl

theorem sampleSchema_registered :
    TableRegistered libValidator (columnsOf sampleSchema "posts") := by
  rw [columnsOf_sampleSchema]
  intro column hmem rs hrs
  simp only [samplePosts, List.mem_cons, List.mem_singleton, List.not_mem_nil, or_false] at hmem
  rcases hmem with h | h | h <;> subst h <;> simp [titleSpec, viewsSpec, slugSpec] at hrs
  subst hrs
  intro rule hrule
  simp only [List.mem_singleton] at hrule
  subst hrule
  rfl

theorem sampleSchema_distinct : DistinctColumns (columnsOf sampleSchema "posts") := by
  rw [columnsOf_sampleSchema]
  simp [DistinctColumns, samplePosts]

theorem noRuleFails_sample :
    NoRuleFails libValidator sampleSchema "posts"
      [("title", .str "abc"), ("views", .str "abc"), ("slug", .str "")] := by
  unfold NoRuleFails
  rw [columnsOf_sampleSchema]
  intro column hmem
  simp only [samplePosts, List.mem_cons, List.mem_singleton, List.not_mem_nil, or_false] at hmem
  rcases hmem with h | h | h <;> subst h <;> rfl

/-- C7 (as amended): for a record that has no own key `hasOwnProperty` and for
which no custom rule of a declared column fails, with the predicates
registered, the errors of `validateSchema` are the violations of the declared
columns, column after column in declaration order and within a column blank,
maximum length, custom rules, integer type; their number is the number of
violated checks; `validateSchema` rejects exactly when that number is not zero
and succeeds with no value exactly when it is zero. -/
theorem validateSchema_reports_all_violations (v : Validator) (schema : Schema)
    (tableName : String) (model : Record) (hb : BuiltinsRegistered v)
    (hreg : TableRegistered v (columnsOf schema tableName))
    (hplain : Unshadowed model) (hrules : NoRuleFails v schema tableName model) :
    (validateSchema v schema tableName model).errors =
        (columnsOf schema tableName).flatMap
          (fun column => columnViolations v tableName model column.1 column.2) ∧
      (validateSchema v schema tableName model).errors.length =
        violatedChecks v schema tableName model ∧
      ((∃ errs, validateSchema v schema tableName model = .rejected errs) ↔
        violatedChecks v schema tableName model ≠ 0) ∧
      (validateSchema v schema tableName model = .success ↔
        violatedChecks v schema tableName model = 0) := by
  have heq := violations_eq_schemaErrors v schema tableName model hrules
  have hlen := violations_length v schema tableName model
  rw [heq] at hlen
  rw [heq]
  have hok := validateSchema_ok v schema tableName model hb hplain hreg
  by_cases hz : (schemaErrors v schema tableName model).length = 0
  · have hs : validateSchema v schema tableName model = .success := by
      rw [hok]
      simp [hz]
    have hnil : schemaErrors v schema tableName model = [] := List.length_eq_zero.mp hz
    rw [hz] at hlen
    rw [hs]
    refine ⟨hnil.symm, hlen, ?_, ?_⟩
    · constructor
      · rintro ⟨errs, h⟩
        cases h
      · intro h
        exact absurd hlen.symm h
    · exact ⟨fun _ => hlen.symm, fun _ => rfl⟩
  · have hr : validateSchema v schema tableName model =
        .rejected (schemaErrors v schema tableName model) := by
      rw [hok]
      simp [hz]
    rw [hlen] at hz
    rw [hr]
    refine ⟨rfl, hlen, ?_, ?_⟩
    · exact ⟨fun _ => hz, fun _ => ⟨_, rfl⟩⟩
    · constructor
      · intro h
        cases h
      · intro h
        exact absurd h hz

theorem validateSchema_reports_all_violations_witness :
    (validateSchema libValidator sampleSchema "posts"
        [("title", .str "abc"), ("views", .str "abc"), ("slug", .str "")]).errors =
      [integerError "posts" "views", blankError "posts" "slug"] := by
  rw [(validateSchema_reports_all_violations libValidator sampleSchema "posts"
    [("title", .str "abc"), ("views", .str "abc"), ("slug", .str "")]
    libValidator_builtins sampleSchema_registered rfl noRuleFails_sample).1]
  rfl

/-- C7 (counterexample): a record whose only own key is `hasOwnProperty` has no
violated check, yet `validateSchema` does not succeed: it throws; and the record
whose title fails the custom rule of its column has one violated check, yet
`validateSchema` succeeds with no error. -/
theorem validateSchema_reports_all_violations_counterexample :
    (violatedChecks libValidator sampleSchema "posts" [("hasOwnProperty", .num 1)] = 0 ∧
        validateSchema libValidator sampleSchema "posts" [("hasOwnProperty", .num 1)] =
          .fault (.typeError "hasOwnProperty")) ∧
      (violatedChecks libValidator sampleSchema "posts" [("title", .str "abcd")] = 1 ∧
        validateSchema libValidator sampleSchema "posts" [("title", .str "abcd")] =
          .success) := by
  refine ⟨⟨?_, ?_⟩, ?_, ?_⟩ <;> rfl

theorem rejected_of_errors_ne_nil (o : Outcome) (h : o.errors ≠ []) :
    o = .rejected o.errors := by
  cases o with
  | success => exact absurd rfl h
  | rejected errs => rfl
  | fault f => exact absurd rfl h

theorem mem_errors_of_mem_errorsFor (errs : List ValidationError) (tableName columnKey : String)
    (e : ValidationError) (h : e ∈ errorsFor errs tableName columnKey) : e ∈ errs :=
  (List.mem_filter.mp h).1

theorem mem_errorsFor_of_mem (errs : List ValidationError) (tableName columnKey : String)
    (e : ValidationError) (h : e ∈ errs) (hattr : e.attr = attributeOf tableName columnKey) :
    e ∈ errorsFor errs tableName columnKey :=
  List.mem_filter.mpr ⟨h, by simpa using hattr⟩

theorem validateSchema_not_fault (v : Validator) (schema : Schema) (tableName : String)
    (model : Record) (hb : BuiltinsRegistered v) (hplain : Unshadowed model)
    (hreg : TableRegistered v (columnsOf schema tableName)) (f : Fault) :
    validateSchema v schema tableName model ≠ .fault f := by
  rw [validateSchema_ok v schema tableName model hb hplain hreg]
  split <;> simp

theorem getProperty_of_lookup (model : Record) (columnKey : String) (x : Primitive)
    (h : model.lookup columnKey = some x) :
    isPresent model columnKey = true ∧ getProperty model columnKey = x.toValue := by
  simp [isPresent, getProperty, h]

theorem getProperty_of_absent (model : Record) (columnKey : String)
    (h : model.lookup columnKey = none) :
    isPresent model columnKey = false ∧
      getProperty model columnKey =
        if columnKey ∈ objectPrototype then .inherited columnKey else .undefined := by
  simp [isPresent, getProperty, h]

theorem result_of_registered (v : Validator) (name : String) (p : Predicate)
    (args : List Value) (h : v name = some p) : v.result name args = p args := by
  simp [Validator.result, h]

theorem maxLengthError_ne_blankError (tableName columnKey : String) (n : Int) :
    maxLengthError tableName columnKey n ≠ blankError tableName columnKey := by
  intro h
  have h1 := congrArg (fun e => e.message.data) h
  simp only [maxLengthError, blankError, String.data_append, List.append_assoc] at h1
  have h2 := List.append_cancel_left (List.append_cancel_left (List.append_cancel_left
    (List.append_cancel_left h1)))
  simp at h2

theorem integerError_ne_blankError (tableName columnKey : String) :
    integerError tableName columnKey ≠ blankError tableName columnKey := by
  intro h
  have h1 := congrArg (fun e => e.message.data) h
  simp only [integerError, blankError, String.data_append, List.append_assoc] at h1
  have h2 := List.append_cancel_left (List.append_cancel_left (List.append_cancel_left
    (List.append_cancel_left h1)))
  simp at h2

theorem maxLengthError_ne_integerError (tableName columnKey : String) (n : Int) :
    maxLengthError tableName columnKey n ≠ integerError tableName columnKey := by
  intro h
  have h1 := congrArg (fun e => e.message.data) h
  simp only [maxLengthError, integerError, String.data_append, List.append_assoc] at h1
  have h2 := List.append_cancel_left (List.append_cancel_left (List.append_cancel_left
    (List.append_cancel_left h1)))
  simp at h2

/-- C3 (as amended): for a record that has no own key `hasOwnProperty`, a
declared column present with the empty string whose spec declares `nullable`
false makes `validateSchema` reject, and the error list holds exactly one error
for that column: the one with attribute `<entityType>.<column>` and message
`Value in [<entityType>.<column>] cannot be blank.` -/
theorem blank_value_in_required_column (v : Validator) (schema : Schema) (tableName : String)
    (model : Record) (columnKey : String) (spec : ColumnSpec) (p : Predicate)
    (hb : BuiltinsRegistered v) (hreg : TableRegistered v (columnsOf schema tableName))
    (hd : DistinctColumns (columnsOf schema tableName)) (hplain : Unshadowed model)
    (hnull : v "isNull" = some p) (hp : IsNullCheck p)
    (hcol : (columnKey, spec) ∈ columnsOf schema tableName)
    (hval : model.lookup columnKey = some (.str ""))
    (hnn : spec.nullable = some false) :
    ∃ errs, validateSchema v schema tableName model = .rejected errs ∧
      errorsFor errs tableName columnKey =
        [⟨"Value in [" ++ tableName ++ "." ++ columnKey ++ "] cannot be blank.",
          tableName ++ "." ++ columnKey⟩] := by
  obtain ⟨hown, hget⟩ := getProperty_of_lookup model columnKey _ hval
  have hviol : columnErrors v tableName model columnKey spec =
      [blankError tableName columnKey] := by
    have h1 : blankViolated v model columnKey spec = true := by
      simp [blankViolated, hown, hget, hnn, result_of_registered v "isNull" p _ hnull, hp.2 "",
        Value.truthy, Primitive.toValue]
    have h2 : ∀ n, lengthViolated v model columnKey n = false := by
      intro n
      simp [lengthViolated, hget, Value.truthy, Primitive.toValue]
    have h3 : integerViolated v model columnKey spec = false := by
      simp [integerViolated, hget, Value.truthy, Primitive.toValue]
    unfold columnErrors
    cases hm : spec.maxlength <;> simp [h1, h2, h3]
  have hfor :=
    errorsFor_validateSchema v schema tableName model columnKey spec hb hplain hreg hd hcol
  rw [hviol] at hfor
  have hne : (validateSchema v schema tableName model).errors ≠ [] := by
    intro hnil
    rw [hnil] at hfor
    cases hfor
  exact ⟨_, rejected_of_errors_ne_nil _ hne, hfor⟩

theorem title_declared : ("title", titleSpec) ∈ columnsOf sampleSchema "posts" := by
  rw [columnsOf_sampleSchema]
  simp [samplePosts]

theorem views_declared : ("views", viewsSpec) ∈ columnsOf sampleSchema "posts" := by
  rw [columnsOf_sampleSchema]
  simp [samplePosts]

theorem blank_value_in_required_column_witness :
    ∃ errs, validateSchema libValidator sampleSchema "posts"
        [("title", .str ""), ("views", .str "abc")] = .rejected errs ∧
      errorsFor errs "posts" "title" =
        [⟨"Value in [" ++ "posts" ++ "." ++ "title" ++ "] cannot be blank.",
          "posts" ++ "." ++ "title"⟩] :=
  blank_value_in_required_column libValidator sampleSchema "posts"
    [("title", .str ""), ("views", .str "abc")] "title" titleSpec libIsNull
    libValidator_builtins sampleSchema_registered sampleSchema_distinct rfl rfl libIsNull_check
    title_declared rfl rfl

/-- C3 (counterexample): the title is declared with `nullable` false and is
present with the empty string, but the record also has an own key
`hasOwnProperty`: `validateSchema` throws and rejects with no error list. -/
theorem blank_value_in_required_column_counterexample :
    ("title", titleSpec) ∈ columnsOf sampleSchema "posts" ∧
      titleSpec.nullable = some false ∧
      List.lookup "title" ([("title", .str ""), ("hasOwnProperty", .num 1)] : Record) =
        some (.str "") ∧
      validateSchema libValidator sampleSchema "posts"
          [("title", .str ""), ("hasOwnProperty", .num 1)] =
        .fault (.typeError "hasOwnProperty") ∧
      ¬ ∃ errs, validateSchema libValidator sampleSchema "posts"
          [("title", .str ""), ("hasOwnProperty", .num 1)] = .rejected errs := by
  refine ⟨title_declared, rfl, rfl, rfl, ?_⟩
  rintro ⟨errs, h⟩
  have hfault : validateSchema libValidator sampleSchema "posts"
      [("title", .str ""), ("hasOwnProperty", .num 1)] =
        .fault (.typeError "hasOwnProperty") := rfl
  rw [hfault] at h
  cases h

/-- C5 (as amended): for a record that has no own key `hasOwnProperty` and a
declared column with `maxlength = N` holding a non-empty string,
`validateSchema` records a maximum-length error for the column only when the
length of the string exceeds `N`, and when it does (length `N+1` or more) it
rejects with the error `Value in [<entityType>.<column>] exceeds maximum length
of <N> characters.` whose attribute is `<entityType>.<column>`. -/
theorem maxlength_is_inclusive_bound (v : Validator) (schema : Schema) (tableName : String)
    (model : Record) (columnKey : String) (spec : ColumnSpec) (p : Predicate) (N : Int)
    (s : String)
    (hb : BuiltinsRegistered v) (hreg : TableRegistered v (columnsOf schema tableName))
    (hd : DistinctColumns (columnsOf schema tableName)) (hplain : Unshadowed model)
    (hlen : v "isLength" = some p) (hp : IsLengthCheck p)
    (hcol : (columnKey, spec) ∈ columnsOf schema tableName)
    (hmax : spec.maxlength = some N)
    (hval : model.lookup columnKey = some (.str s)) (hs : s ≠ "") :
    (∀ n, maxLengthError tableName columnKey n ∈
        (validateSchema v schema tableName model).errors → N < s.length) ∧
      (N < s.length →
        ∃ errs, validateSchema v schema tableName model = .rejected errs ∧
          (⟨"Value in [" ++ tableName ++ "." ++ columnKey ++ "] exceeds maximum length of "
              ++ toString N ++ " characters.", tableName ++ "." ++ columnKey⟩ :
            ValidationError) ∈ errs) := by
  have hget : getProperty model columnKey = .str s :=
    (getProperty_of_lookup model columnKey _ hval).2
  have hfor :=
    errorsFor_validateSchema v schema tableName model columnKey spec hb hplain hreg hd hcol
  have htruthy : (Value.str s).truthy = true := by
    simp [Value.truthy, hs]
  have hviol : lengthViolated v model columnKey N = decide (N < s.length) := by
    simp only [lengthViolated, hget, htruthy, Bool.true_and,
      result_of_registered v "isLength" p _ hlen, hp s 0 N, Value.truthy]
    by_cases h : N < s.length
    · have h' : ¬ ((s.length : Int) ≤ N) := by omega
      simp [h, h', hs]
    · have h' : (s.length : Int) ≤ N := by omega
      simp [h, h', hs]
  constructor
  · intro n hmem
    have hmem' := mem_errorsFor_of_mem _ tableName columnKey _ hmem rfl
    rw [hfor] at hmem'
    simp only [columnErrors, hmax, hviol, List.mem_append] at hmem'
    rcases hmem' with (h | h) | h
    · split at h
      · simp only [List.mem_singleton] at h
        exact absurd h (maxLengthError_ne_blankError tableName columnKey n)
      · cases h
    · split at h
      · rename_i hlt
        simpa using hlt
      · cases h
    · split at h
      · simp only [List.mem_singleton] at h
        exact absurd h (maxLengthError_ne_integerError tableName columnKey n)
      · cases h
  · intro hlt
    have hin : maxLengthError tableName columnKey N ∈
        errorsFor (validateSchema v schema tableName model).errors tableName columnKey := by
      rw [hfor]
      simp [columnErrors, hmax, hviol, hlt]
    have hin' := mem_errors_of_mem_errorsFor _ _ _ _ hin
    have hne : (validateSchema v schema tableName model).errors ≠ [] := by
      intro hnil
      rw [hnil] at hin'
      cases hin'
    exact ⟨_, rejected_of_errors_ne_nil _ hne, hin'⟩

theorem maxlength_is_inclusive_bound_witness :
    ∃ errs, validateSchema libValidator sampleSchema "posts" [("title", .str "abcdef")] =
        .rejected errs ∧
      (⟨"Value in [" ++ "posts" ++ "." ++ "title" ++ "] exceeds maximum length of "
          ++ toString (5 : Int) ++ " characters.", "posts" ++ "." ++ "title"⟩ :
        ValidationError) ∈ errs :=
  (maxlength_is_inclusive_bound libValidator sampleSchema "posts" [("title", .str "abcdef")]
    "title" titleSpec libIsLength 5 "abcdef" libValidator_builtins sampleSchema_registered
    sampleSchema_distinct rfl rfl libIsLength_check title_declared rfl rfl (by decide)).2
    (by decide)

/-- C5 (counterexample): the title has `maxlength` 5 and holds a string of 6
characters, but the record also has an own key `hasOwnProperty`:
`validateSchema` throws and records no maximum-length error. -/
theorem maxlength_is_inclusive_bound_counterexample :
    ("title", titleSpec) ∈ columnsOf sampleSchema "posts" ∧
      titleSpec.maxlength = some 5 ∧
      List.lookup "title" ([("title", .str "abcdef"), ("hasOwnProperty", .num 1)] : Record) =
        some (.str "abcdef") ∧
      validateSchema libValidator sampleSchema "posts"
          [("title", .str "abcdef"), ("hasOwnProperty", .num 1)] =
        .fault (.typeError "hasOwnProperty") ∧
      maxLengthError "posts" "title" 5 ∉
        (validateSchema libValidator sampleSchema "posts"
          [("title", .str "abcdef"), ("hasOwnProperty", .num 1)]).errors := by
  refine ⟨title_declared, rfl, rfl, rfl, ?_⟩
  intro h
  have hfault : validateSchema libValidator sampleSchema "posts"
      [("title", .str "abcdef"), ("hasOwnProperty", .num 1)] =
        .fault (.typeError "hasOwnProperty") := rfl
  rw [hfault] at h
  cases h

/-- C6 (as amended): for a record that has no own key `hasOwnProperty` and a
declared column of type `integer` holding a truthy value, `validateSchema`
records the error `Value in [<entityType>.<column>] is no valid
integer.` exactly when the value fails the integer predicate; the value `"42"`
leaves no such error and the value `"abc"` leaves exactly one. -/
theorem integer_column_checks_isInt (v : Validator) (schema : Schema) (tableName : String)
    (model : Record) (columnKey : String) (spec : ColumnSpec) (p : Predicate) (x : Primitive)
    (hb : BuiltinsRegistered v) (hreg : TableRegistered v (columnsOf schema tableName))
    (hd : DistinctColumns (columnsOf schema tableName)) (hplain : Unshadowed model)
    (hint : v "isInt" = some p) (hp : IsIntCheck p)
    (hcol : (columnKey, spec) ∈ columnsOf schema tableName)
    (hty : spec.type = some "integer")
    (hval : model.lookup columnKey = some x) (hx : x.toValue.truthy = true) :
    integerError tableName columnKey =
        ⟨"Value in [" ++ tableName ++ "." ++ columnKey ++ "] is no valid integer.",
          tableName ++ "." ++ columnKey⟩ ∧
      (integerError tableName columnKey ∈ (validateSchema v schema tableName model).errors ↔
        (p [x.toValue]).truthy = false) ∧
      (x = .str "42" →
        integerError tableName columnKey ∉ (validateSchema v schema tableName model).errors) ∧
      (x = .str "abc" →
        (validateSchema v schema tableName model).errors.count
          (integerError tableName columnKey) = 1) := by
  obtain ⟨_, hget⟩ := getProperty_of_lookup model columnKey _ hval
  have hfor :=
    errorsFor_validateSchema v schema tableName model columnKey spec hb hplain hreg hd hcol
  have hviol : integerViolated v model columnKey spec = !(p [x.toValue]).truthy := by
    simp [integerViolated, hget, hx, hty, result_of_registered v "isInt" p _ hint]
  have hiff : integerError tableName columnKey ∈ (validateSchema v schema tableName model).errors ↔
      (p [x.toValue]).truthy = false := by
    constructor
    · intro hmem
      have hmem' := mem_errorsFor_of_mem _ tableName columnKey _ hmem rfl
      rw [hfor] at hmem'
      simp only [columnErrors, hviol, List.mem_append] at hmem'
      rcases hmem' with (h | h) | h
      · split at h
        · simp only [List.mem_singleton] at h
          exact absurd h (integerError_ne_blankError tableName columnKey)
        · cases h
      · split at h
        · split at h
          · simp only [List.mem_singleton] at h
            exact absurd h.symm (maxLengthError_ne_integerError tableName columnKey _)
          · cases h
        · cases h
      · split at h
        · rename_i hnot
          simpa using hnot
        · cases h
    · intro hfalse
      have hin : integerError tableName columnKey ∈
          errorsFor (validateSchema v schema tableName model).errors tableName columnKey := by
        rw [hfor]
        simp [columnErrors, hviol, hfalse]
      exact mem_errors_of_mem_errorsFor _ _ _ _ hin
  refine ⟨rfl, hiff, ?_, ?_⟩
  · intro h42
    rw [hiff, h42]
    show (p [Value.str "42"]).truthy ≠ false
    rw [hp "42"]
    decide
  · intro habc
    have hfalse : (p [x.toValue]).truthy = false := by
      rw [habc]
      show (p [Value.str "abc"]).truthy = false
      rw [hp "abc"]
      decide
    have hcount : (validateSchema v schema tableName model).errors.count
          (integerError tableName columnKey) =
        (errorsFor (validateSchema v schema tableName model).errors tableName columnKey).count
          (integerError tableName columnKey) := by
      unfold errorsFor
      rw [List.count_filter]
      simp [integerError]
    rw [hcount, hfor]
    have hb1 : ¬ integerError tableName columnKey = blankError tableName columnKey :=
      integerError_ne_blankError tableName columnKey
    have hm1 : ∀ n, ¬ integerError tableName columnKey = maxLengthError tableName columnKey n :=
      fun n h => maxLengthError_ne_integerError tableName columnKey n h.symm
    unfold columnErrors
    simp only [hviol, hfalse, Bool.not_false, if_true, List.count_append]
    have h1 : (if blankViolated v model columnKey spec = true then
        [blankError tableName columnKey] else []).count (integerError tableName columnKey) = 0 := by
      split
      · exact List.count_eq_zero.mpr (by simpa using hb1)
      · rfl
    have h2 : (match spec.maxlength with
        | some maxlength =>
          if lengthViolated v model columnKey maxlength = true then
            [maxLengthError tableName columnKey maxlength]
          else []
        | none => []).count (integerError tableName columnKey) = 0 := by
      split
      · split
        · exact List.count_eq_zero.mpr (by simpa using hm1 _)
        · rfl
      · rfl
    rw [h1, h2]
    simp

theorem integer_column_checks_isInt_witness :
    (validateSchema libValidator sampleSchema "posts" [("views", .str "abc")]).errors.count
      (integerError "posts" "views") = 1 :=
  (integer_column_checks_isInt libValidator sampleSchema "posts" [("views", .str "abc")]
    "views" viewsSpec libIsInt (.str "abc") libValidator_builtins sampleSchema_registered
    sampleSchema_distinct rfl rfl libIsInt_check views_declared rfl rfl rfl).2.2.2 rfl

/-- C6 (counterexample): the integer column holds `"abc"`, which fails the
integer predicate, but the record also has an own key `hasOwnProperty`:
`validateSchema` throws and records no integer error. -/
theorem integer_column_checks_isInt_counterexample :
    ("views", viewsSpec) ∈ columnsOf sampleSchema "posts" ∧
      viewsSpec.type = some "integer" ∧
      List.lookup "views" ([("views", .str "abc"), ("hasOwnProperty", .num 1)] : Record) =
        some (.str "abc") ∧
      (libIsInt [.str "abc"]).truthy = false ∧
      validateSchema libValidator sampleSchema "posts"
          [("views", .str "abc"), ("hasOwnProperty", .num 1)] =
        .fault (.typeError "hasOwnProperty") ∧
      integerError "posts" "views" ∉
        (validateSchema libValidator sampleSchema "posts"
          [("views", .str "abc"), ("hasOwnProperty", .num 1)]).errors := by
  refine ⟨views_declared, rfl, rfl, rfl, rfl, ?_⟩
  intro h
  have hfault : validateSchema libValidator sampleSchema "posts"
      [("views", .str "abc"), ("hasOwnProperty", .num 1)] =
        .fault (.typeError "hasOwnProperty") := rfl
  rw [hfault] at h
  cases h

/-- C2: evaluation at a record whose title fails the custom rule of its column:
`validate` rejects with an error for the rule (whose attribute is the bare
column name), while `validateSchema` succeeds with no error at all. -/
theorem validateSchema_drops_rule_errors :
    validate libValidator (.str "abcd") "title" [("isLength", .array [.num 0, .num 3])] =
        .rejected [⟨"Settings validation (isLength) failed for title", "title"⟩] ∧
      validateSchema libValidator sampleSchema "posts" [("title", .str "abcd")] = .success := by
  constructor <;> rfl

theorem validateEach_attr (v : Validator) (value : Value) (key : String) (rs : RuleSet) :
    ∀ errs : List ValidationError, (∀ e ∈ errs, e.attr = key) →
      ∀ errs', (validateEach v value key errs rs).1 = .ok errs' → ∀ e ∈ errs', e.attr = key := by
  induction rs with
  | nil =>
    intro errs hinv errs' hok
    simp only [validateEach, Except.ok.injEq] at hok
    subst hok
    exact hinv
  | cons rule rest ih =>
    obtain ⟨name, opts⟩ := rule
    intro errs hinv errs' hok
    cases hv : v name with
    | none =>
      simp [validateEach, validateEntry, Validator.call, hv] at hok
    | some p =>
      simp only [validateEach, validateEntry_registered v value key errs name opts p hv] at hok
      refine ih _ ?_ errs' hok
      intro e he
      split at he
      · exact hinv e he
      · rcases List.mem_append.mp he with h | h
        · exact hinv e h
        · simp only [List.mem_singleton] at h
          subst h
          rfl

theorem validate_errors_attr (v : Validator) (value : Value) (key : String) (rs : RuleSet) :
    ∀ e ∈ (validate v value key rs).errors, e.attr = key := by
  intro e he
  have hinv := validateEach_attr v value key rs [] (by simp)
  unfold validate validateRun at he
  rcases hres : validateEach v value key [] rs with ⟨r, rs'⟩
  rw [hres] at he hinv
  cases r with
  | error f => cases he
  | ok errs =>
    simp only at he
    split at he
    · exact hinv errs rfl e he
    · cases he

/-- C8: `validateSettings` succeeds with no value when the catalog has no entry
for the key or the entry has no validations, and otherwise has the outcome of
`validate(value, key, catalog[key].validations)`; in all cases that is the
outcome of `validate` on the rule set the spec attaches to the key, and every
error reported has the bare setting key as attribute. -/
theorem validateSettings_delegates_to_validate (v : Validator)
    (defaultSettings : DefaultSettings) (values : Setting) :
    (match defaultSettings.lookup values.key with
      | none => validateSettings v defaultSettings values = .success
      | some matchingDefault =>
        match matchingDefault.validations with
        | none => validateSettings v defaultSettings values = .success
        | some validations =>
          validateSettings v defaultSettings values =
            validate v values.value values.key validations) ∧
      validateSettings v defaultSettings values =
        validate v values.value values.key (settingRules defaultSettings values.key) ∧
      ∀ e ∈ (validateSettings v defaultSettings values).errors, e.attr = values.key := by
  have hempty : validate v values.value values.key [] = .success := rfl
  have hspec : validateSettings v defaultSettings values =
      validate v values.value values.key (settingRules defaultSettings values.key) := by
    unfold validateSettings settingRules
    cases defaultSettings.lookup values.key with
    | none => exact hempty.symm
    | some d =>
      obtain ⟨dvalue, dvalidations⟩ := d
      cases dvalidations with
      | none => exact hempty.symm
      | some rs => rfl
  refine ⟨?_, hspec, ?_⟩
  · unfold validateSettings
    cases defaultSettings.lookup values.key with
    | none => rfl
    | some d =>
      obtain ⟨dvalue, dvalidations⟩ := d
      cases dvalidations with
      | none => rfl
      | some rs => rfl
  · rw [hspec]
    exact validate_errors_attr v values.value values.key _

theorem validateSettings_delegates_to_validate_witness :
    validateSettings libValidator sampleSettings ⟨"title", .str "A"⟩ =
        validate libValidator (.str "A") "title" [("isLength", .array [.num 2, .num 5])] ∧
      validateSettings libValidator sampleSettings ⟨"description", .str "A"⟩ = .success :=
  ⟨(validateSettings_delegates_to_validate libValidator sampleSettings ⟨"title", .str "A"⟩).1,
    (validateSettings_delegates_to_validate libValidator sampleSettings
      ⟨"description", .str "A"⟩).1⟩

/-! ## Unregistered rules -/

theorem firstUnregistered_eq_none_iff (v : Validator) (rs : RuleSet) :
    firstUnregistered v rs = none ↔ RulesRegistered v rs := by
  simp only [firstUnregistered, Option.map_eq_none', List.find?_eq_none, RulesRegistered]
  constructor
  · intro h rule hmem
    have := h rule hmem
    cases hv : v rule.1 with
    | none => simp [hv] at this
    | some p => rfl
  · intro h rule hmem
    have := h rule hmem
    cases hv : v rule.1 with
    | none => simp [hv] at this
    | some p => simp

theorem firstUnregistered_spec (v : Validator) (rs : RuleSet) (name : String)
    (h : firstUnregistered v rs = some name) :
    v name = none ∧ ∃ opts, (name, opts) ∈ rs := by
  simp only [firstUnregistered, Option.map_eq_some'] at h
  obtain ⟨rule, hfind, hname⟩ := h
  have hp := List.find?_some hfind
  have hmem := List.mem_of_find?_eq_some hfind
  subst hname
  refine ⟨?_, rule.2, hmem⟩
  cases hv : v rule.1 with
  | none => rfl
  | some p => simp [hv] at hp

theorem validateEach_unregistered (v : Validator) (value : Value) (key : String)
    (rs : RuleSet) (name : String) (h : firstUnregistered v rs = some name)
    (errs : List ValidationError) :
    (validateEach v value key errs rs).1 = .error (.typeError name) := by
  induction rs generalizing errs with
  | nil => simp [firstUnregistered] at h
  | cons rule rest ih =>
    obtain ⟨r, opts⟩ := rule
    cases hv : v r with
    | none =>
      have hname : r = name := by
        simpa [firstUnregistered, List.find?_cons, hv] using h
      subst hname
      simp [validateEach, validateEntry, Validator.call, hv]
    | some p =>
      have hrest : firstUnregistered v rest = some name := by
        simpa [firstUnregistered, List.find?_cons, hv] using h
      simp only [validateEach, validateEntry_registered v value key errs r opts p hv]
      exact ih hrest _

theorem validate_unregistered (v : Validator) (value : Value) (key : String)
    (rs : RuleSet) (name : String) (h : firstUnregistered v rs = some name) :
    validate v value key rs = .fault (.typeError name) := by
  have h1 := validateEach_unregistered v value key rs name h []
  unfold validate validateRun
  rcases hres : validateEach v value key [] rs with ⟨r, rs'⟩
  rw [hres] at h1
  simp only at h1
  subst h1
  rfl

theorem registered_of_not_fault (v : Validator) (value : Value) (key : String)
    (rs : RuleSet) (h : ∀ f, validate v value key rs ≠ .fault f) : RulesRegistered v rs := by
  rw [← firstUnregistered_eq_none_iff]
  cases hfirst : firstUnregistered v rs with
  | none => rfl
  | some name => exact absurd (validate_unregistered v value key rs name hfirst) (h _)

/-- C11: every error in the list `validate` rejects with belongs to a failing
rule `r` of the rule set and has message `Settings validation (r) failed for k`
and attribute `k`, where `k` is the key; and when the rule names are registered,
every failing rule has that error in the list. -/
theorem validate_error_message_and_attribute (v : Validator) (value : Value) (key : String)
    (rs : RuleSet) :
    (∀ e ∈ (validate v value key rs).errors,
        ∃ rule ∈ rs, ruleFails v value rule = true ∧
          e = ⟨"Settings validation (" ++ rule.1 ++ ") failed for " ++ key, key⟩) ∧
      (RulesRegistered v rs → ∀ rule ∈ rs, ruleFails v value rule = true →
        (⟨"Settings validation (" ++ rule.1 ++ ") failed for " ++ key, key⟩ : ValidationError) ∈
          (validate v value key rs).errors) := by
  have hreg_case : RulesRegistered v rs →
      (validate v value key rs).errors =
        (failingRules v value rs).map (fun rule => ruleError rule.1 key) := by
    intro hreg
    rw [validate_registered v value key rs hreg]
    by_cases hlen : ((failingRules v value rs).length != 0) = true
    · simp [hlen, Outcome.errors]
    · have hnil : failingRules v value rs = [] := by simpa using hlen
      simp [hnil, Outcome.errors]
  constructor
  · intro e he
    cases hfirst : firstUnregistered v rs with
    | some name =>
      rw [validate_unregistered v value key rs name hfirst] at he
      cases he
    | none =>
      have hreg := (firstUnregistered_eq_none_iff v rs).mp hfirst
      rw [hreg_case hreg] at he
      obtain ⟨rule, hmem, heq⟩ := List.mem_map.mp he
      have hf := List.mem_filter.mp hmem
      exact ⟨rule, hf.1, hf.2, heq.symm⟩
  · intro hreg rule hmem hfail
    rw [hreg_case hreg]
    exact List.mem_map.mpr ⟨rule, List.mem_filter.mpr ⟨hmem, hfail⟩, rfl⟩

theorem validate_error_message_and_attribute_witness :
    (⟨"Settings validation (" ++ "isLength" ++ ") failed for " ++ "title", "title"⟩ :
        ValidationError) ∈ (validate libValidator (.str "abc") "title" sampleRules).errors :=
  (validate_error_message_and_attribute libValidator (.str "abc") "title" sampleRules).2
    sampleRules_registered ("isLength", .array [.num 0, .num 2]) (by simp [sampleRules]) rfl

theorem firstUnregistered_of_exists (v : Validator) (rs : RuleSet)
    (hun : ∃ rule ∈ rs, v rule.1 = none) : ∃ name, firstUnregistered v rs = some name := by
  cases hfirst : firstUnregistered v rs with
  | some name => exact ⟨name, rfl⟩
  | none =>
    obtain ⟨rule, hmem, hnone⟩ := hun
    have hreg := (firstUnregistered_eq_none_iff v rs).mp hfirst rule hmem
    simp [hnone] at hreg

theorem checkValidations_fault (v : Validator) (model : Record) (columnKey : String)
    (spec : ColumnSpec) (rs : RuleSet) (name : String) (hrs : spec.validations = some rs)
    (hfirst : firstUnregistered v rs = some name) (errs : List ValidationError) :
    checkValidations v model columnKey spec errs = .error (.typeError name) := by
  simp [checkValidations, hrs, validate_unregistered v _ columnKey rs name hfirst]

theorem checkColumn_fault (v : Validator) (tableName : String) (model : Record)
    (columnKey : String) (spec : ColumnSpec) (rs : RuleSet) (name : String)
    (hrs : spec.validations = some rs) (hfirst : firstUnregistered v rs = some name)
    (ht : (getProperty model columnKey).truthy = true) (errs : List ValidationError) :
    ∃ f, checkColumn v tableName model columnKey spec errs = .error f := by
  unfold checkColumn
  cases checkNullable v tableName model columnKey spec errs with
  | error f => exact ⟨f, rfl⟩
  | ok errs1 =>
    simp only [ht, if_true]
    cases checkLength v tableName model columnKey spec errs1 with
    | error f => exact ⟨f, rfl⟩
    | ok errs2 =>
      simp only [checkValidations_fault v model columnKey spec rs name hrs hfirst]
      exact ⟨_, rfl⟩

theorem checkColumns_fault (v : Validator) (tableName : String) (model : Record)
    (columnKey : String) (spec : ColumnSpec) (rs : RuleSet) (name : String)
    (hrs : spec.validations = some rs) (hfirst : firstUnregistered v rs = some name)
    (ht : (getProperty model columnKey).truthy = true) (table : Table)
    (hcol : (columnKey, spec) ∈ table) (errs : List ValidationError) :
    ∃ f, checkColumns v tableName model errs table = .error f := by
  induction table generalizing errs with
  | nil => cases hcol
  | cons column rest ih =>
    obtain ⟨c, sp⟩ := column
    unfold checkColumns
    rcases List.mem_cons.mp hcol with heq | hmem
    · cases heq
      obtain ⟨f, hf⟩ := checkColumn_fault v tableName model columnKey spec rs name hrs hfirst ht errs
      rw [hf]
      exact ⟨f, rfl⟩
    · cases hres : checkColumn v tableName model c sp errs with
      | error f => exact ⟨f, rfl⟩
      | ok errs1 => exact ih hmem errs1

/-- C12: when a rule set names a rule that is not a registered predicate,
`validate` neither succeeds nor rejects: it ends with the fault raised for the
first such rule, carrying no error list, and the fault reaches the callers
`validateSettings` and `validateSchema`. -/
theorem unregistered_rule_aborts (v : Validator) (value : Value) (key : String) (rs : RuleSet)
    (hun : ∃ rule ∈ rs, v rule.1 = none) :
    (∃ name, firstUnregistered v rs = some name ∧ v name = none ∧
        validate v value key rs = .fault (.typeError name)) ∧
      validate v value key rs ≠ .success ∧
      (∀ errs, validate v value key rs ≠ .rejected errs) ∧
      (validate v value key rs).errors = [] ∧
      (∀ (defaultSettings : DefaultSettings) (matchingDefault : DefaultSetting),
        defaultSettings.lookup key = some matchingDefault →
        matchingDefault.validations = some rs →
        ∃ f, validateSettings v defaultSettings ⟨key, value⟩ = .fault f) ∧
      (∀ (schema : Schema) (tableName : String) (model : Record) (columnKey : String)
        (spec : ColumnSpec), (columnKey, spec) ∈ columnsOf schema tableName →
        spec.validations = some rs → (getProperty model columnKey).truthy = true →
        ∃ f, validateSchema v schema tableName model = .fault f) := by
  obtain ⟨name, hfirst⟩ := firstUnregistered_of_exists v rs hun
  have hfault := validate_unregistered v value key rs name hfirst
  refine ⟨⟨name, hfirst, (firstUnregistered_spec v rs name hfirst).1, hfault⟩, ?_, ?_, ?_, ?_, ?_⟩
  · rw [hfault]
    simp
  · intro errs
    rw [hfault]
    simp
  · rw [hfault]
    rfl
  · intro defaultSettings matchingDefault hlook hval
    refine ⟨.typeError name, ?_⟩
    simp [validateSettings, hlook, hval, hfault]
  · intro schema tableName model columnKey spec hcol hval ht
    obtain ⟨f, hf⟩ := checkColumns_fault v tableName model columnKey spec rs name hval hfirst ht
      (columnsOf schema tableName) hcol []
    refine ⟨f, ?_⟩
    unfold columnsOf at hf
    simp [validateSchema, hf]

theorem unregistered_rule_aborts_witness :
    ∃ name, firstUnregistered libValidator unknownRules = some name ∧
      libValidator name = none ∧
      validate libValidator (.num 1) "title" unknownRules = .fault (.typeError name) :=
  (unregistered_rule_aborts libValidator (.num 1) "title" unknownRules
    ⟨("nope", .array [.num 2, .num 3]), by simp [unknownRules], rfl⟩).1

/-- C13: a call of `validate` that does not abort leaves the rule set as it was,
but a call that aborts does not: with `nope` naming no predicate,
`validate(1, "title", {nope: [2, 3]})` aborts and leaves the options array of
`nope` as `[1, 2, 3]`, the value still prepended. -/
theorem validate_abort_leaves_value_prepended :
    (∀ (v : Validator) (value : Value) (key : String) (rs : RuleSet),
        (∀ f, validate v value key rs ≠ .fault f) → (validateRun v value key rs).2 = rs) ∧
      validateRun libValidator (.num 1) "title" [("nope", .array [.num 2, .num 3])] =
        (.fault (.typeError "nope"), [("nope", .array [.num 1, .num 2, .num 3])]) := by
  constructor
  · intro v value key rs hnf
    have hreg := registered_of_not_fault v value key rs hnf
    simp [validateRun, validateEach_registered v value key rs hreg]
  · rfl

/-! ## What a column's pass can add -/

theorem hasOwnProperty_ok (model : Record) (columnKey : String) (own : Bool)
    (h : hasOwnProperty model columnKey = .ok own) :
    own = isPresent model columnKey := by
  unfold hasOwnProperty at h
  split at h
  · cases h
  · cases h
    rfl

theorem checkNullable_cases (v : Validator) (tableName : String) (model : Record)
    (columnKey : String) (spec : ColumnSpec) (errs errs' : List ValidationError)
    (h : checkNullable v tableName model columnKey spec errs = .ok errs') :
    errs' = errs ∨
      (isPresent model columnKey = true ∧ spec.nullable = some false ∧
        errs' = errs ++ [blankError tableName columnKey]) := by
  unfold checkNullable at h
  cases hown : hasOwnProperty model columnKey with
  | error f => simp [hown] at h
  | ok own =>
    have hpres := hasOwnProperty_ok model columnKey own hown
    simp only [hown] at h
    split at h
    · rename_i hcond
      have hfacts : isPresent model columnKey = true ∧ spec.nullable = some false := by
        rw [← hpres]
        rcases hn : spec.nullable with _ | _ | _ <;> simp [hn] at hcond ⊢
        exact hcond
      split at h
      · cases h
      · split at h
        · cases h
          exact Or.inr ⟨hfacts.1, hfacts.2, rfl⟩
        · split at h
          · cases h
          · split at h
            · cases h
              exact Or.inr ⟨hfacts.1, hfacts.2, rfl⟩
            · cases h
              exact Or.inl rfl
    · cases h
      exact Or.inl rfl

theorem checkLength_cases (v : Validator) (tableName : String) (model : Record)
    (columnKey : String) (spec : ColumnSpec) (errs errs' : List ValidationError)
    (h : checkLength v tableName model columnKey spec errs = .ok errs') :
    errs' = errs ∨
      ∃ n, spec.maxlength = some n ∧ errs' = errs ++ [maxLengthError tableName columnKey n] := by
  unfold checkLength at h
  split at h
  · cases h
    exact Or.inl rfl
  · rename_i n hn
    split at h
    · cases h
    · split at h
      · cases h
        exact Or.inr ⟨n, hn, rfl⟩
      · cases h
        exact Or.inl rfl

theorem checkValidations_cases (v : Validator) (model : Record)
    (columnKey : String) (spec : ColumnSpec) (errs errs' : List ValidationError)
    (h : checkValidations v model columnKey spec errs = .ok errs') : errs' = errs := by
  unfold checkValidations at h
  split at h
  · cases h
    rfl
  · split at h
    · cases h
    · cases h
      rfl

theorem checkType_cases (v : Validator) (tableName : String) (model : Record)
    (columnKey : String) (spec : ColumnSpec) (errs errs' : List ValidationError)
    (h : checkType v tableName model columnKey spec errs = .ok errs') :
    errs' = errs ∨
      (spec.type = some "integer" ∧ errs' = errs ++ [integerError tableName columnKey]) := by
  unfold checkType at h
  split at h
  · cases h
    exact Or.inl rfl
  · rename_i ty hty
    split at h
    · rename_i hint
      subst hint
      split at h
      · cases h
      · split at h
        · cases h
          exact Or.inr ⟨hty, rfl⟩
        · cases h
          exact Or.inl rfl
    · cases h
      exact Or.inl rfl

theorem checkColumn_inv (v : Validator) (tableName : String) (model : Record)
    (columnKey : String) (spec : ColumnSpec) (P : ValidationError → Prop)
    (hblank : isPresent model columnKey = true → spec.nullable = some false →
      P (blankError tableName columnKey))
    (hmax : (getProperty model columnKey).truthy = true → ∀ n, spec.maxlength = some n →
      P (maxLengthError tableName columnKey n))
    (hint : (getProperty model columnKey).truthy = true → spec.type = some "integer" →
      P (integerError tableName columnKey))
    (errs errs' : List ValidationError) (hinv : ∀ e ∈ errs, P e)
    (h : checkColumn v tableName model columnKey spec errs = .ok errs') :
    ∀ e ∈ errs', P e := by
  unfold checkColumn at h
  cases h1 : checkNullable v tableName model columnKey spec errs with
  | error f => simp [h1] at h
  | ok errs1 =>
    have hinv1 : ∀ e ∈ errs1, P e := by
      rcases checkNullable_cases v tableName model columnKey spec errs errs1 h1 with
        heq | ⟨hpres, hnull, heq⟩
      · rw [heq]
        exact hinv
      · rw [heq]
        intro e he
        rcases List.mem_append.mp he with h' | h'
        · exact hinv e h'
        · simp only [List.mem_singleton] at h'
          rw [h']
          exact hblank hpres hnull
    simp only [h1] at h
    split at h
    · rename_i ht
      cases h2 : checkLength v tableName model columnKey spec errs1 with
      | error f => simp [h2] at h
      | ok errs2 =>
        have hinv2 : ∀ e ∈ errs2, P e := by
          rcases checkLength_cases v tableName model columnKey spec errs1 errs2 h2 with
            heq | ⟨n, hn, heq⟩
          · rw [heq]
            exact hinv1
          · rw [heq]
            intro e he
            rcases List.mem_append.mp he with h' | h'
            · exact hinv1 e h'
            · simp only [List.mem_singleton] at h'
              rw [h']
              exact hmax ht n hn
        simp only [h2] at h
        cases h3 : checkValidations v model columnKey spec errs2 with
        | error f => simp [h3] at h
        | ok errs3 =>
          have heq3 := checkValidations_cases v model columnKey spec errs2 errs3 h3
          subst heq3
          simp only [h3] at h
          rcases checkType_cases v tableName model columnKey spec errs3 errs' h with
            heq | ⟨hty, heq⟩
          · rw [heq]
            exact hinv2
          · rw [heq]
            intro e he
            rcases List.mem_append.mp he with h' | h'
            · exact hinv2 e h'
            · simp only [List.mem_singleton] at h'
              rw [h']
              exact hint ht hty
    · cases h
      exact hinv1

theorem checkColumns_inv (v : Validator) (tableName : String) (model : Record)
    (P : ValidationError → Prop) (table : Table)
    (hP : ∀ column ∈ table,
      (isPresent model column.1 = true → column.2.nullable = some false →
        P (blankError tableName column.1)) ∧
      ((getProperty model column.1).truthy = true → ∀ n, column.2.maxlength = some n →
        P (maxLengthError tableName column.1 n)) ∧
      ((getProperty model column.1).truthy = true → column.2.type = some "integer" →
        P (integerError tableName column.1)))
    (errs errs' : List ValidationError) (hinv : ∀ e ∈ errs, P e)
    (h : checkColumns v tableName model errs table = .ok errs') :
    ∀ e ∈ errs', P e := by
  induction table generalizing errs with
  | nil =>
    simp only [checkColumns, Except.ok.injEq] at h
    subst h
    exact hinv
  | cons column rest ih =>
    obtain ⟨c, sp⟩ := column
    unfold checkColumns at h
    cases h1 : checkColumn v tableName model c sp errs with
    | error f => simp [h1] at h
    | ok errs1 =>
      simp only [h1] at h
      have hc := hP (c, sp) (by simp)
      have hinv1 := checkColumn_inv v tableName model c sp P hc.1 hc.2.1 hc.2.2 errs errs1 hinv h1
      exact ih (fun column hmem => hP column (List.mem_cons_of_mem _ hmem)) errs1 hinv1 h

theorem validateSchema_errors_inv (v : Validator) (schema : Schema) (tableName : String)
    (model : Record) (P : ValidationError → Prop)
    (hP : ∀ column ∈ columnsOf schema tableName,
      (isPresent model column.1 = true → column.2.nullable = some false →
        P (blankError tableName column.1)) ∧
      ((getProperty model column.1).truthy = true → ∀ n, column.2.maxlength = some n →
        P (maxLengthError tableName column.1 n)) ∧
      ((getProperty model column.1).truthy = true → column.2.type = some "integer" →
        P (integerError tableName column.1))) :
    ∀ e ∈ (validateSchema v schema tableName model).errors, P e := by
  intro e he
  unfold validateSchema at he
  cases h : checkColumns v tableName model [] ((schema.lookup tableName).getD []) with
  | error f =>
    rw [h] at he
    cases he
  | ok errs =>
    rw [h] at he
    simp only at he
    split at he
    · exact checkColumns_inv v tableName model P _ hP [] errs (by simp) h e he
    · cases he

theorem spec_of_declared (table : Table) (columnKey : String) (spec spec' : ColumnSpec)
    (hd : DistinctColumns table) (h : (columnKey, spec) ∈ table)
    (h' : (columnKey, spec') ∈ table) : spec' = spec := by
  induction table with
  | nil => cases h
  | cons column rest ih =>
    have hnd : column.1 ∉ rest.map Prod.fst ∧ (rest.map Prod.fst).Nodup := by
      simpa [DistinctColumns] using hd
    rcases List.mem_cons.mp h with heq | hmem
    · rcases List.mem_cons.mp h' with heq' | hmem'
      · rw [← heq] at heq'
        exact congrArg Prod.snd heq'
      · exfalso
        apply hnd.1
        rw [← heq]
        have hfst := List.mem_map_of_mem Prod.fst hmem'
        exact hfst
    · rcases List.mem_cons.mp h' with heq' | hmem'
      · exfalso
        apply hnd.1
        rw [← heq']
        have hfst := List.mem_map_of_mem Prod.fst hmem
        exact hfst
      · exact ih hnd.2 hmem hmem'

theorem attr_ne_of_ne (tableName c c' : String) (h : c' ≠ c) :
    attributeOf tableName c' ≠ attributeOf tableName c :=
  fun heq => h (attributeOf_injective tableName _ _ heq)

theorem truthy_eq_false_iff (x : Value) :
    x.truthy = false ↔
      x = .null ∨ x = .undefined ∨ x = .str "" ∨ x = .num 0 ∨ x = .bool false := by
  cases x <;> simp [Value.truthy]

theorem errors_of_column (v : Validator) (schema : Schema) (tableName : String)
    (model : Record) (columnKey : String) (spec : ColumnSpec) (P : ValidationError → Prop)
    (hd : DistinctColumns (columnsOf schema tableName))
    (hcol : (columnKey, spec) ∈ columnsOf schema tableName)
    (hother : ∀ e, e.attr ≠ attributeOf tableName columnKey → P e)
    (hblank : isPresent model columnKey = true → spec.nullable = some false →
      P (blankError tableName columnKey))
    (hmax : (getProperty model columnKey).truthy = true → ∀ n, spec.maxlength = some n →
      P (maxLengthError tableName columnKey n))
    (hint : (getProperty model columnKey).truthy = true → spec.type = some "integer" →
      P (integerError tableName columnKey)) :
    ∀ e ∈ (validateSchema v schema tableName model).errors, P e := by
  apply validateSchema_errors_inv
  intro column hmem
  obtain ⟨c, sp⟩ := column
  by_cases hc : c = columnKey
  · subst hc
    have hsp : sp = spec := spec_of_declared _ c spec sp hd hcol hmem
    subst hsp
    exact ⟨hblank, hmax, hint⟩
  · have hne := attr_ne_of_ne tableName columnKey c hc
    exact ⟨fun _ _ => hother _ hne, fun _ _ _ => hother _ hne, fun _ _ => hother _ hne⟩

/-- C4 (as amended): a declared column for which the record has no own key gets
no blank error, even when its spec declares `nullable` false; and when the
name of the column is not the name of a member of `Object.prototype`, it gets no
error at all, and its pass leaves the accumulated errors as they are when the
record has no own key `hasOwnProperty`. -/
theorem absent_key_records_no_error (v : Validator) (schema : Schema) (tableName : String)
    (model : Record) (columnKey : String) (spec : ColumnSpec)
    (hd : DistinctColumns (columnsOf schema tableName))
    (hcol : (columnKey, spec) ∈ columnsOf schema tableName)
    (habs : model.lookup columnKey = none) :
    blankError tableName columnKey ∉ (validateSchema v schema tableName model).errors ∧
      (columnKey ∉ objectPrototype →
        errorsFor (validateSchema v schema tableName model).errors tableName columnKey = []) ∧
      (columnKey ∉ objectPrototype → Unshadowed model →
        ∀ errs, checkColumn v tableName model columnKey spec errs = .ok errs) := by
  obtain ⟨hpres, hget⟩ := getProperty_of_absent model columnKey habs
  refine ⟨?_, ?_, ?_⟩
  · intro hmem
    refine errors_of_column v schema tableName model columnKey spec
      (fun e => e ≠ blankError tableName columnKey) hd hcol ?_ ?_ ?_ ?_ _ hmem rfl
    · intro e hattr heq
      rw [heq] at hattr
      exact hattr rfl
    · intro h
      rw [hpres] at h
      cases h
    · intro _ n _
      exact maxLengthError_ne_blankError tableName columnKey n
    · intro _ _
      exact integerError_ne_blankError tableName columnKey
  · intro hnot
    have hundef : (getProperty model columnKey).truthy = false := by
      rw [hget]
      simp [hnot, Value.truthy]
    simp only [errorsFor, List.filter_eq_nil_iff, decide_eq_true_eq]
    refine errors_of_column v schema tableName model columnKey spec
      (fun e => ¬ e.attr = attributeOf tableName columnKey) hd hcol ?_ ?_ ?_ ?_
    · intro e hattr
      exact hattr
    · intro h
      rw [hpres] at h
      cases h
    · intro h
      rw [hundef] at h
      cases h
    · intro h
      rw [hundef] at h
      cases h
  · intro hnot hplain errs
    have hundef : getProperty model columnKey = .undefined := by
      rw [hget]
      simp [hnot]
    unfold Unshadowed at hplain
    simp [checkColumn, checkNullable, hasOwnProperty, hplain, habs, hundef, Value.truthy]

theorem absent_key_records_no_error_witness :
    errorsFor (validateSchema libValidator sampleSchema "posts" [("views", .str "abc")]).errors
      "posts" "title" = [] :=
  (absent_key_records_no_error libValidator sampleSchema "posts" [("views", .str "abc")]
    "title" titleSpec sampleSchema_distinct title_declared rfl).2.1 (by decide)

/-- C4 (counterexample): the column `constructor` is declared of type `integer`
and the record has no own key for it (it has no own key at all), yet
`validateSchema` rejects with an integer error for that column: the read
`model["constructor"]` gives the inherited member, which is truthy and no
integer. -/
theorem absent_key_records_no_error_counterexample :
    ("constructor", constructorSpec) ∈ columnsOf prototypeSchema "posts" ∧
      List.lookup "constructor" ([] : Record) = none ∧
      validateSchema libValidator prototypeSchema "posts" [] =
        .rejected [integerError "posts" "constructor"] ∧
      errorsFor (validateSchema libValidator prototypeSchema "posts" []).errors
        "posts" "constructor" ≠ [] := by
  refine ⟨List.Mem.head _, rfl, rfl, ?_⟩
  have hrej : validateSchema libValidator prototypeSchema "posts" [] =
      .rejected [integerError "posts" "constructor"] := rfl
  rw [hrej]
  decide

/-- C14: for a declared column whose value in the record is falsy (null,
undefined, the empty string, 0 or false), the column's pass is the nullable
check alone: no length check, no custom rule and no type check is run, whatever
the column spec declares; the errors of `validateSchema` hold no maximum-length
error and no integer error for the column, and every error they hold for the
column is the blank error. -/
theorem falsy_value_skips_truthy_checks (v : Validator) (schema : Schema) (tableName : String)
    (model : Record) (columnKey : String) (spec : ColumnSpec)
    (hd : DistinctColumns (columnsOf schema tableName))
    (hcol : (columnKey, spec) ∈ columnsOf schema tableName)
    (hx : getProperty model columnKey = .null ∨ getProperty model columnKey = .undefined ∨
      getProperty model columnKey = .str "" ∨ getProperty model columnKey = .num 0 ∨
      getProperty model columnKey = .bool false) :
    (∀ errs, checkColumn v tableName model columnKey spec errs =
        checkNullable v tableName model columnKey spec errs) ∧
      (∀ e ∈ (validateSchema v schema tableName model).errors,
        e.attr = attributeOf tableName columnKey → e = blankError tableName columnKey) ∧
      (∀ n, maxLengthError tableName columnKey n ∉
        (validateSchema v schema tableName model).errors) ∧
      integerError tableName columnKey ∉ (validateSchema v schema tableName model).errors := by
  have hf : (getProperty model columnKey).truthy = false := (truthy_eq_false_iff _).mpr hx
  have honly : ∀ e ∈ (validateSchema v schema tableName model).errors,
      e.attr = attributeOf tableName columnKey → e = blankError tableName columnKey := by
    refine errors_of_column v schema tableName model columnKey spec
      (fun e => e.attr = attributeOf tableName columnKey → e = blankError tableName columnKey)
      hd hcol ?_ ?_ ?_ ?_
    · intro e hne hattr
      exact absurd hattr hne
    · intro _ _ _
      rfl
    · intro h
      rw [hf] at h
      cases h
    · intro h
      rw [hf] at h
      cases h
  refine ⟨?_, honly, ?_, ?_⟩
  · intro errs
    unfold checkColumn
    cases checkNullable v tableName model columnKey spec errs with
    | error f => rfl
    | ok errs1 => simp [hf]
  · intro n hmem
    exact maxLengthError_ne_blankError tableName columnKey n (honly _ hmem rfl)
  · intro hmem
    exact integerError_ne_blankError tableName columnKey (honly _ hmem rfl)

theorem falsy_value_skips_truthy_checks_witness :
    integerError "posts" "title" ∉
      (validateSchema libValidator sampleSchema "posts"
        [("title", .num 0), ("views", .str "abc")]).errors :=
  (falsy_value_skips_truthy_checks libValidator sampleSchema "posts"
    [("title", .num 0), ("views", .str "abc")] "title" titleSpec
    sampleSchema_distinct title_declared
    (Or.inr (Or.inr (Or.inr (Or.inl rfl))))).2.2.2

/-- C15: for a declared column whose spec has no `nullable` entry or has
`nullable` true, the nullable check adds nothing, whatever the record holds for
the column (it ends as the call `model.hasOwnProperty` does, with the errors it
was given), and the errors of `validateSchema` hold no blank error for the
column. -/
theorem nullable_absent_or_true_never_blank (v : Validator) (schema : Schema)
    (tableName : String) (model : Record) (columnKey : String) (spec : ColumnSpec)
    (hd : DistinctColumns (columnsOf schema tableName))
    (hcol : (columnKey, spec) ∈ columnsOf schema tableName)
    (hn : spec.nullable = none ∨ spec.nullable = some true) :
    (∀ errs, checkNullable v tableName model columnKey spec errs =
        match hasOwnProperty model columnKey with
        | .error f => .error f
        | .ok _ => .ok errs) ∧
      (⟨"Value in [" ++ tableName ++ "." ++ columnKey ++ "] cannot be blank.",
          tableName ++ "." ++ columnKey⟩ : ValidationError) ∉
        (validateSchema v schema tableName model).errors := by
  constructor
  · intro errs
    unfold checkNullable
    cases hasOwnProperty model columnKey with
    | error f => rfl
    | ok own => rcases hn with hn | hn <;> simp [hn]
  · intro hmem
    refine errors_of_column v schema tableName model columnKey spec
      (fun e => e ≠ blankError tableName columnKey) hd hcol ?_ ?_ ?_ ?_ _ hmem rfl
    · intro e hattr heq
      rw [heq] at hattr
      exact hattr rfl
    · intro _ hfalse
      rcases hn with hn | hn <;> rw [hn] at hfalse <;> cases hfalse
    · intro _ n _
      exact maxLengthError_ne_blankError tableName columnKey n
    · intro _ _
      exact integerError_ne_blankError tableName columnKey

theorem columnsOf_usersSchema : columnsOf usersSchema "users" = sampleUsers := by
  rfl

theorem usersSchema_distinct : DistinctColumns (columnsOf usersSchema "users") := by
  rw [columnsOf_usersSchema]
  simp [DistinctColumns, sampleUsers]

theorem nullable_absent_or_true_never_blank_witness :
    (⟨"Value in [" ++ "users" ++ "." ++ "nickname" ++ "] cannot be blank.",
        "users" ++ "." ++ "nickname"⟩ : ValidationError) ∉
      (validateSchema libValidator usersSchema "users"
        [("nickname", .str ""), ("bio", .null)]).errors :=
  (nullable_absent_or_true_never_blank libValidator usersSchema "users"
    [("nickname", .str ""), ("bio", .null)] "nickname" { maxlength := some 3 }
    usersSchema_distinct
    (by rw [columnsOf_usersSchema]; simp [sampleUsers]) (Or.inl rfl)).2

theorem checkColumn_congr (v : Validator) (tableName : String) (model₁ model₂ : Record)
    (columnKey : String) (spec : ColumnSpec) (errs : List ValidationError)
    (hown : (model₁.lookup "hasOwnProperty").isSome = (model₂.lookup "hasOwnProperty").isSome)
    (h : model₁.lookup columnKey = model₂.lookup columnKey) :
    checkColumn v tableName model₁ columnKey spec errs =
      checkColumn v tableName model₂ columnKey spec errs := by
  have hhas : hasOwnProperty model₁ columnKey = hasOwnProperty model₂ columnKey := by
    unfold hasOwnProperty
    rw [h]
    cases h1 : model₁.lookup "hasOwnProperty" <;> cases h2 : model₂.lookup "hasOwnProperty" <;>
      simp [h1, h2] at hown ⊢
  have hget : getProperty model₁ columnKey = getProperty model₂ columnKey := by
    simp [getProperty, h]
  simp only [checkColumn, checkNullable, checkLength, checkValidations, checkType, hhas, hget]

theorem checkColumns_congr (v : Validator) (tableName : String) (model₁ model₂ : Record)
    (table : Table)
    (hown : (model₁.lookup "hasOwnProperty").isSome = (model₂.lookup "hasOwnProperty").isSome)
    (h : ∀ column ∈ table, model₁.lookup column.1 = model₂.lookup column.1)
    (errs : List ValidationError) :
    checkColumns v tableName model₁ errs table = checkColumns v tableName model₂ errs table := by
  induction table generalizing errs with
  | nil => rfl
  | cons column rest ih =>
    obtain ⟨c, sp⟩ := column
    simp only [checkColumns]
    rw [checkColumn_congr v tableName model₁ model₂ c sp errs hown (h (c, sp) (by simp))]
    cases checkColumn v tableName model₂ c sp errs with
    | error f => rfl
    | ok errs1 => exact ih (fun column hmem => h column (List.mem_cons_of_mem _ hmem)) errs1

/-- C16 (as amended): two records that have the same own keys and values on
every column declared for the entity type, and that both have or both lack an
own key `hasOwnProperty` (they may differ on all other undeclared keys), get the
same outcome from `validateSchema`. -/
theorem undeclared_keys_are_ignored (v : Validator) (schema : Schema) (tableName : String)
    (model₁ model₂ : Record)
    (hown : (model₁.lookup "hasOwnProperty").isSome = (model₂.lookup "hasOwnProperty").isSome)
    (hagree : ∀ column ∈ columnsOf schema tableName,
      model₁.lookup column.1 = model₂.lookup column.1) :
    validateSchema v schema tableName model₁ = validateSchema v schema tableName model₂ := by
  have h := checkColumns_congr v tableName model₁ model₂ _ hown hagree []
  unfold columnsOf at h
  unfold validateSchema
  rw [h]

theorem sample_records_agree (extra : Record) (hextra : ∀ column ∈ samplePosts,
      extra.lookup column.1 = none) :
    ∀ column ∈ columnsOf sampleSchema "posts",
      List.lookup column.1 (("title", Primitive.str "abcdef") :: extra) =
        List.lookup column.1 ([("title", .str "abcdef")] : Record) := by
  rw [columnsOf_sampleSchema]
  intro column hmem
  have hnone := hextra column hmem
  simp only [samplePosts, List.mem_cons, List.mem_singleton, List.not_mem_nil,
    or_false] at hmem
  rcases hmem with h | h | h <;> subst h
  · rfl
  · simpa [List.lookup] using hnone
  · simpa [List.lookup] using hnone

theorem undeclared_keys_are_ignored_witness :
    validateSchema libValidator sampleSchema "posts"
        [("title", .str "abcdef"), ("password", .str ""), ("admin", .bool true)] =
      validateSchema libValidator sampleSchema "posts" [("title", .str "abcdef")] :=
  undeclared_keys_are_ignored libValidator sampleSchema "posts"
    [("title", .str "abcdef"), ("password", .str ""), ("admin", .bool true)]
    [("title", .str "abcdef")] rfl
    (sample_records_agree [("password", .str ""), ("admin", .bool true)]
      (by
        intro column hmem
        simp only [samplePosts, List.mem_cons, List.mem_singleton, List.not_mem_nil,
          or_false] at hmem
        rcases hmem with h | h | h <;> subst h <;> rfl))

/-- C16 (counterexample): two records with the same own keys and values on every
declared column that differ only on the undeclared key `hasOwnProperty` get
different outcomes: the first makes `validateSchema` throw, the second makes it
reject with the maximum-length error. -/
theorem undeclared_keys_are_ignored_counterexample :
    (∀ column ∈ columnsOf sampleSchema "posts",
        List.lookup column.1
            ([("title", .str "abcdef"), ("hasOwnProperty", .str "x")] : Record) =
          List.lookup column.1 ([("title", .str "abcdef")] : Record)) ∧
      validateSchema libValidator sampleSchema "posts"
          [("title", .str "abcdef"), ("hasOwnProperty", .str "x")] =
        .fault (.typeError "hasOwnProperty") ∧
      validateSchema libValidator sampleSchema "posts" [("title", .str "abcdef")] =
        .rejected [maxLengthError "posts" "title" 5] := by
  refine ⟨sample_records_agree [("hasOwnProperty", .str "x")] ?_, rfl, rfl⟩
  intro column hmem
  simp only [samplePosts, List.mem_cons, List.mem_singleton, List.not_mem_nil,
    or_false] at hmem
  rcases hmem with h | h | h <;> subst h <;> rfl

theorem bracket_message (a rest : String) :
    a ++ ("]" ++ rest) = a ++ "]" ++ rest := by
  apply String.ext
  simp [String.data_append]

/-- C17: every error in a list `validateSchema` rejects with has attribute
`<entityType>.<column>` for a column declared for the entity type, and its
message starts with `Value in [<entityType>.<column>]`. -/
theorem schema_errors_name_a_declared_column (v : Validator) (schema : Schema)
    (tableName : String) (model : Record) :
    ∀ e ∈ (validateSchema v schema tableName model).errors,
      ∃ column ∈ columnsOf schema tableName,
        e.attr = tableName ++ "." ++ column.1 ∧
          ∃ rest, e.message = "Value in [" ++ tableName ++ "." ++ column.1 ++ "]" ++ rest := by
  apply validateSchema_errors_inv
  intro column hmem
  refine ⟨fun _ _ => ⟨column, hmem, rfl, " cannot be blank.", ?_⟩, ?_,
    fun _ _ => ⟨column, hmem, rfl, " is no valid integer.", ?_⟩⟩
  · rw [← bracket_message]
    rfl
  · intro _ n _
    refine ⟨column, hmem, rfl, " exceeds maximum length of " ++ toString n ++ " characters.", ?_⟩
    apply String.ext
    simp [maxLengthError, String.data_append]
  · rw [← bracket_message]
    rfl

/-! ## The forms of rule options -/

theorem validate_single (v : Validator) (value : Value) (key r : String) (opts : RuleOptions) :
    validate v value key [(r, opts)] =
      match v r with
      | none => .fault (.typeError r)
      | some p => if rulePasses p value opts then .success else .rejected [ruleError r key] := by
  cases hv : v r with
  | none =>
    simp [validate, validateRun, validateEach, validateEntry, Validator.call, hv]
  | some p =>
    simp only [validate, validateRun, validateEach,
      validateEntry_registered v value key [] r opts p hv]
    by_cases hpass : rulePasses p value opts = true
    · simp [hpass]
    · simp [hpass]

/-- C18: an option that is neither a boolean nor an array gives the same
outcome as the one-element array holding it, and the option `true` gives the
same outcome as the empty array. -/
theorem scalar_option_is_one_argument (v : Validator) (value : Value) (key r : String)
    (s : Value) (hs : ∀ b, s ≠ .bool b) :
    validate v value key [(r, .scalar s)] = validate v value key [(r, .array [s])] ∧
      validate v value key [(r, .scalar (.bool true))] =
        validate v value key [(r, .array [])] := by
  constructor
  · rw [validate_single, validate_single]
    cases s with
    | bool b => exact absurd rfl (hs b)
    | undefined => rfl
    | null => rfl
    | num n => rfl
    | str t => rfl
    | inherited name => rfl
  · rw [validate_single, validate_single]
    rfl

theorem scalar_option_is_one_argument_witness :
    validate libValidator (.str "abc") "title" [("isLength", .scalar (.num 2))] =
      validate libValidator (.str "abc") "title" [("isLength", .array [.num 2])] :=
  (scalar_option_is_one_argument libValidator (.str "abc") "title" "isLength" (.num 2)
    (by intro b h; cases h)).1

/-- C19: for a registered rule whose predicate returns the boolean `b` on the
value alone, the rule with option `b` succeeds and the rule with the other
boolean is rejected with exactly one error, so exactly one of `r: true` and
`r: false` fails; when the predicate's result is no boolean, both are rejected
with one error. -/
theorem boolean_rule_and_its_negation (v : Validator) (value : Value) (key r : String)
    (p : Predicate) (hr : v r = some p) :
    (∀ b, p [value] = .bool b →
        validate v value key [(r, .scalar (.bool b))] = .success ∧
          validate v value key [(r, .scalar (.bool (!b)))] = .rejected [ruleError r key]) ∧
      ((∀ b, p [value] ≠ .bool b) →
        validate v value key [(r, .scalar (.bool true))] = .rejected [ruleError r key] ∧
          validate v value key [(r, .scalar (.bool false))] = .rejected [ruleError r key]) := by
  constructor
  · intro b hb
    rw [validate_single, validate_single]
    simp only [hr, rulePasses, hb]
    cases b <;> simp
  · intro hnb
    rw [validate_single, validate_single]
    simp only [hr, rulePasses]
    have h1 : (p [value] == Value.bool true) = false := by
      simpa using hnb true
    have h2 : (p [value] == Value.bool false) = false := by
      simpa using hnb false
    simp [h1, h2]

theorem boolean_rule_and_its_negation_witness :
    validate libValidator .null "title" [("isNull", .scalar (.bool true))] = .success ∧
      validate libValidator .null "title" [("isNull", .scalar (.bool (!true)))] =
        .rejected [ruleError "isNull" "title"] :=
  (boolean_rule_and_its_negation libValidator .null "title" "isNull" libIsNull rfl).1 true rfl

/-- C20: for an entity type that has no entry in the schema, or whose entry
declares no columns, `validateSchema` succeeds with no value for every record. -/
theorem unknown_entity_type_succeeds (v : Validator) (schema : Schema) (tableName : String)
    (model : Record)
    (h : schema.lookup tableName = none ∨ schema.lookup tableName = some []) :
    validateSchema v schema tableName model = .success := by
  rcases h with h | h <;> simp [validateSchema, h, checkColumns]

theorem unknown_entity_type_succeeds_witness :
    validateSchema libValidator sampleSchema "tags" [("title", .str "")] = .success :=
  unknown_entity_type_succeeds libValidator sampleSchema "tags" [("title", .str "")]
    (Or.inl rfl)

theorem maxLengthError_mem_sample :
    maxLengthError "posts" "title" 5 ∈
      (validateSchema libValidator sampleSchema "posts" [("title", .str "abcdef")]).errors :=
  List.Mem.head _

theorem schema_errors_name_a_declared_column_witness :
    ∃ column ∈ columnsOf sampleSchema "posts",
      (maxLengthError "posts" "title" 5).attr = "posts" ++ "." ++ column.1 ∧
        ∃ rest, (maxLengthError "posts" "title" 5).message =
          "Value in [" ++ "posts" ++ "." ++ column.1 ++ "]" ++ rest :=
  schema_errors_name_a_declared_column libValidator sampleSchema "posts"
    [("title", .str "abcdef")] (maxLengthError "posts" "title" 5) maxLengthError_mem_sample

end Validation
